import Mathlib

/-!
# Verification of the chat-orchestration core (`ChatOrchestrator.ts` / `MCPService.executeTool`)

Shallow embedding of the tool-execution orchestration loop of the repository:

* a JavaScript-value model (`JValue`) for the duck-typed JSON data flowing
  through tool results and chart detection;
* the chart detector (`detectChartsInToolResult`, `analyzeDataForChart`,
  `flattenNestedArrayData`, `selectRelevantMetrics`,
  `filterChartableNumericFields`, `determineChartType`, ...);
* the streaming-response accumulator (`accumulateStreamingResponse`);
* the tool executor (`executeToolCall`, `executeToolCallWithTimeout`) and the
  provider-side result normalization (`MCPService.executeTool`,
  lines 406-544 of the service file);
* the orchestration loop (`chatWithTools`).

Modelling conventions, used throughout:

* JavaScript numbers are modelled as rationals (`ℚ`).  The only numeric
  operations the embedded code performs are `typeof v === 'number'` checks,
  `isNaN`, equality and integer arithmetic on small counters, none of which
  depend on floating-point rounding.  `NaN` has no rational counterpart;
  `JValue.vnum` models the non-`NaN` numbers (JSON itself cannot denote `NaN`),
  so the source's `!isNaN(val)` conjunct is identically true in the model.
* `Date` instances are modelled by the tag `JValue.vdate`: the embedded code
  only ever asks `instanceof Date` / `typeof`, never looks at the time value.
* JavaScript objects are insertion-ordered association lists; property
  assignment (`objSet`) updates an existing slot in place or appends.
* Exceptions are modelled with `Except String`; a thrown `Error(msg)` is
  `Except.error msg`.  `async` functions that the source races against a timer
  additionally report a settle time (a `Nat`, milliseconds).
* Ambient nondeterminism (`Date.now()`, `Math.random()`) is passed in
  explicitly: the orchestration environment carries a clock value and a
  chart-id generator stream.
* Regular expressions: every regex literal of the source is carried over as a
  `Pat` value; the source only uses case-insensitive substring, anchored,
  word-boundary (`\b` after the literal) and `a.*b` shaped patterns, which
  `Pat.test` implements exactly.
-/

/-! ## JavaScript value model -/

/-- A JavaScript runtime value as seen by the orchestrator's duck-typed code:
`null`, booleans, (non-`NaN`) numbers, strings, `Date` instances, arrays and
plain objects (insertion-ordered field lists). -/
inductive JValue where
  | vnull : JValue
  | vbool (b : Bool) : JValue
  | vnum (n : ℚ) : JValue
  | vstr (s : String) : JValue
  | vdate : JValue
  | varr (elems : List JValue) : JValue
  | vobj (fields : List (String × JValue)) : JValue

/-- JavaScript truthiness (`if (v)`): `null`, `false`, `0`, `''` are falsy;
every object (including `[]`, `{}`, `Date`) is truthy. `undefined` is modelled
as the absence of a value (`Option.none`), see `jsTruthyOpt`. -/
def jsTruthy : JValue → Bool
  | .vnull => false
  | .vbool b => b
  | .vnum n => decide (n ≠ 0)
  | .vstr s => decide (s ≠ "")
  | .vdate => true
  | .varr _ => true
  | .vobj _ => true

/-- Truthiness of a possibly-`undefined` value (`if (obj.field)`). -/
def jsTruthyOpt : Option JValue → Bool
  | none => false
  | some v => jsTruthy v

/-- `typeof v` (note `typeof null === 'object'` and `typeof [] === 'object'`,
and `Date` instances are objects). -/
def jsTypeof : JValue → String
  | .vnull => "object"
  | .vbool _ => "boolean"
  | .vnum _ => "number"
  | .vstr _ => "string"
  | .vdate => "object"
  | .varr _ => "object"
  | .vobj _ => "object"

/-- `v && typeof v === 'object' && !Array.isArray(v)`: a non-null, non-array
object.  `Date` instances satisfy this. -/
def isJsObject : JValue → Bool
  | .vobj _ => true
  | .vdate => true
  | _ => false

/-- `Array.isArray(v)`. -/
def isJsArray : JValue → Bool
  | .varr _ => true
  | _ => false

/-- Property read `v[key]`; `none` models `undefined`.  Reading a property of
a non-object (or a `Date`, which has no own enumerable properties the code
cares about) yields `undefined`. -/
def objGet (v : JValue) (key : String) : Option JValue :=
  match v with
  | .vobj fields => fields.lookup key
  | _ => none

/-- `Object.keys(v)` (insertion order); `[]` for `Date` and non-objects. -/
def objKeys : JValue → List String
  | .vobj fields => fields.map Prod.fst
  | _ => []

/-- `Object.entries(v)`; `[]` for `Date` and non-objects. -/
def objEntries : JValue → List (String × JValue)
  | .vobj fields => fields
  | _ => []

/-- Property assignment `v[key] = val` on an object: overwrite the existing
slot in place, else append a new slot (JavaScript insertion-order semantics).
Assignment on a non-object is not performed by the embedded code. -/
def objSet (v : JValue) (key : String) (val : JValue) : JValue :=
  match v with
  | .vobj fields =>
      if (fields.lookup key).isSome then
        .vobj (fields.map fun p => if p.1 = key then (key, val) else p)
      else
        .vobj (fields ++ [(key, val)])
  | other => other

/-- `typeof v === 'number' && !isNaN(v)` (see the `NaN` modelling note in the
file header). -/
def isJsNumber : JValue → Bool
  | .vnum _ => true
  | _ => false

/-- `typeof v === 'string' || v instanceof Date`. -/
def isStrOrDate : JValue → Bool
  | .vstr _ => true
  | .vdate => true
  | _ => false

/-- The same check on a possibly-`undefined` value. -/
def isStrOrDateOpt : Option JValue → Bool
  | some v => isStrOrDate v
  | none => false

/-- `typeof v === 'number' && !isNaN(v)` on a possibly-`undefined` value. -/
def isJsNumberOpt : Option JValue → Bool
  | some v => isJsNumber v
  | none => false

/-! ## Case-insensitive pattern matching (the source's regex literals)

The source uses only these regex shapes (always with the `i` flag):
plain substring (`/steps/i`), alternation of substrings
(`/date|time|.../i`), two substrings separated by `.*` (`/heart.*rate/i`),
a substring followed by a word boundary (`/hr\b/i`), and anchored literals
(`/^id$/i`, `/Id$/i`, `/^totalDistance/i`). -/

/-- A `\w` word character: ASCII letter, digit or underscore. -/
def isWordChar (c : Char) : Bool := c.isAlphanum || c == '_'

/-- Does `needle` occur as a contiguous sublist of `hay`? -/
def containsSub (needle : List Char) : List Char → Bool
  | [] => needle.isEmpty
  | c :: rest => needle.isPrefixOf (c :: rest) || containsSub needle rest

/-- Does `needle` occur in `hay` immediately followed by a word boundary
(end of string or a non-word character)?  Models `/needle\b/`. -/
def containsWordEnd (needle : List Char) : List Char → Bool
  | [] => false
  | c :: rest =>
      (needle.isPrefixOf (c :: rest) &&
        (match (c :: rest).drop needle.length with
         | [] => true
         | d :: _ => !isWordChar d)) ||
      containsWordEnd needle rest

/-- Does `a` occur in `hay` with an occurrence of `b` starting at or after the
end of `a`'s occurrence?  Models `/a.*b/`. -/
def containsThen (a b : List Char) : List Char → Bool
  | [] => false
  | c :: rest =>
      (a.isPrefixOf (c :: rest) && containsSub b ((c :: rest).drop a.length)) ||
      containsThen a b rest

/-- One regex literal of the source, by shape.  All tests are
case-insensitive (`i` flag), implemented by lowercasing both sides. -/
inductive Pat where
  | containsP (s : String)
  | thenP (a b : String)
  | wordEndP (s : String)
  | startP (s : String)
  | endP (s : String)
  | exactP (s : String)

/-- Case-folded character list of a string (`String.toLower`, in a form the
kernel can evaluate). -/
def lowerChars (s : String) : List Char := s.data.map Char.toLower

/-- `regex.test(input)` for the regex shapes of the source. -/
def Pat.test (p : Pat) (input : String) : Bool :=
  let h := lowerChars input
  match p with
  | .containsP s => containsSub (lowerChars s) h
  | .thenP a b => containsThen (lowerChars a) (lowerChars b) h
  | .wordEndP s => containsWordEnd (lowerChars s) h
  | .startP s => (lowerChars s).isPrefixOf h
  | .endP s => (lowerChars s).isSuffixOf h
  | .exactP s => lowerChars s == h

/-- `/date|time|timestamp|day|month|year/i` (used for both X-axis selection
and chart-type choice). -/
def datePatternTest (s : String) : Bool :=
  [Pat.containsP "date", Pat.containsP "time", Pat.containsP "timestamp",
   Pat.containsP "day", Pat.containsP "month", Pat.containsP "year"].any
    (fun p => p.test s)

/-! ## A small JSON parser (`JSON.parse`)

Fuel-based recursive descent; the fuel is derived from the input length, so
parsing is total and computable.  Numeric literals are parsed into `ℚ`
(integer and decimal-fraction forms; exponent forms are not used by any input
considered here).  `JSON.parse` failures of any kind are `none`. -/

/-- Skip JSON whitespace. -/
def skipWs : List Char → List Char
  | ' ' :: rest => skipWs rest
  | '\t' :: rest => skipWs rest
  | '\n' :: rest => skipWs rest
  | '\r' :: rest => skipWs rest
  | other => other

/-- Parse the digit run at the head of the input. -/
def takeDigits : List Char → (List Char × List Char)
  | [] => ([], [])
  | c :: rest =>
      if c.isDigit then
        let (ds, r) := takeDigits rest
        (c :: ds, r)
      else ([], c :: rest)

/-- Digits to a natural number. -/
def digitsToNat (ds : List Char) : Nat :=
  ds.foldl (fun acc c => acc * 10 + (c.toNat - '0'.toNat)) 0

/-- Parse a JSON string body after the opening quote, handling the escapes
`\"`, `\\`, `\/`, `\n`, `\t`, `\r` (sufficient for the data considered). -/
def parseStringBody : Nat → List Char → Option (String × List Char)
  | 0, _ => none
  | _ + 1, [] => none
  | fuel + 1, c :: rest =>
      if c = '"' then some ("", rest)
      else if c = '\\' then
        match rest with
        | [] => none
        | e :: rest2 =>
            let dec : Option Char :=
              if e = '"' then some '"'
              else if e = '\\' then some '\\'
              else if e = '/' then some '/'
              else if e = 'n' then some '\n'
              else if e = 't' then some '\t'
              else if e = 'r' then some '\r'
              else none
            match dec with
            | none => none
            | some d =>
                match parseStringBody fuel rest2 with
                | some (s, r) => some (⟨d :: s.data⟩, r)
                | none => none
      else
        match parseStringBody fuel rest with
        | some (s, r) => some (⟨c :: s.data⟩, r)
        | none => none

mutual

/-- Parse one JSON value. -/
def parseValue : Nat → List Char → Option (JValue × List Char)
  | 0, _ => none
  | fuel + 1, cs =>
      match skipWs cs with
      | [] => none
      | c :: rest =>
          if c = 'n' then
            if ['u','l','l'].isPrefixOf rest then some (.vnull, rest.drop 3) else none
          else if c = 't' then
            if ['r','u','e'].isPrefixOf rest then some (.vbool true, rest.drop 3) else none
          else if c = 'f' then
            if ['a','l','s','e'].isPrefixOf rest then some (.vbool false, rest.drop 4) else none
          else if c = '"' then
            match parseStringBody (fuel + 1) rest with
            | some (s, r) => some (.vstr s, r)
            | none => none
          else if c = '[' then
            match skipWs rest with
            | ']' :: r2 => some (.varr [], r2)
            | other => parseElems fuel other []
          else if c = '\x7b' then
            match skipWs rest with
            | '\x7d' :: r2 => some (.vobj [], r2)
            | other => parseMembers fuel other (.vobj [])
          else if c = '-' || c.isDigit then
            let (sign, cs2) : (Bool × List Char) :=
              if c = '-' then (true, rest) else (false, c :: rest)
            match takeDigits cs2 with
            | ([], _) => none
            | (ds, cs3) =>
                let intPart : ℚ := (digitsToNat ds : ℚ)
                match cs3 with
                | '.' :: cs4 =>
                    match takeDigits cs4 with
                    | ([], _) => none
                    | (fs, cs5) =>
                        let fracPart : ℚ :=
                          (digitsToNat fs : ℚ) / ((10 : ℚ) ^ fs.length)
                        let n := intPart + fracPart
                        some (.vnum (if sign then -n else n), cs5)
                | other => some (.vnum (if sign then -intPart else intPart), other)
          else none

/-- Parse the elements of a non-empty JSON array (after `[`). -/
def parseElems : Nat → List Char → List JValue → Option (JValue × List Char)
  | 0, _, _ => none
  | fuel + 1, cs, acc =>
      match parseValue fuel cs with
      | none => none
      | some (v, r) =>
          match skipWs r with
          | ',' :: r2 => parseElems fuel r2 (acc ++ [v])
          | ']' :: r2 => some (.varr (acc ++ [v]), r2)
          | _ => none

/-- Parse the members of a non-empty JSON object (after the opening brace).
Duplicate keys overwrite in place, as `JSON.parse` does. -/
def parseMembers : Nat → List Char → JValue → Option (JValue × List Char)
  | 0, _, _ => none
  | fuel + 1, cs, acc =>
      match skipWs cs with
      | '"' :: rest =>
          match parseStringBody (fuel + 1) rest with
          | none => none
          | some (k, r) =>
              match skipWs r with
              | ':' :: r2 =>
                  match parseValue fuel r2 with
                  | none => none
                  | some (v, r3) =>
                      let acc2 := objSet acc k v
                      match skipWs r3 with
                      | ',' :: r4 => parseMembers fuel r4 acc2
                      | '\x7d' :: r4 => some (acc2, r4)
                      | _ => none
              | _ => none
      | _ => none

end

/-- `JSON.parse(s)`: `none` on any syntax error (the source always wraps the
call in `try`/`catch` or treats failure as "not chartable data"). -/
def parseJson (s : String) : Option JValue :=
  match parseValue (2 * s.length + 2) s.data with
  | some (v, rest) => if (skipWs rest).isEmpty then some v else none
  | none => none

/-- Compact rendering of a value, standing in for `JSON.stringify(v, null, 2)`
in synthesized message texts (the 2-space pretty indentation of the source is
not reproduced; no verified property depends on the rendered text). -/
def jsonStringify : JValue → String
  | .vnull => "null"
  | .vbool b => if b then "true" else "false"
  | .vnum n => toString n
  | .vstr s => "\"" ++ s ++ "\""
  | .vdate => "\"(date)\""
  | .varr xs =>
      "[" ++ String.intercalate "," (xs.attach.map fun x => jsonStringify x.1) ++ "]"
  | .vobj fields =>
      "\x7b" ++
        String.intercalate ","
          (fields.attach.map fun p => "\"" ++ p.1.1 ++ "\":" ++ jsonStringify p.1.2) ++
      "\x7d"
termination_by v => sizeOf v
decreasing_by
  · have h := List.sizeOf_lt_of_mem x.2
    simp only [JValue.varr.sizeOf_spec]
    omega
  · rcases p with ⟨⟨k, v⟩, hm⟩
    have h := List.sizeOf_lt_of_mem hm
    simp only [Prod.mk.sizeOf_spec] at h
    simp only [JValue.vobj.sizeOf_spec]
    omega

/-! ## `MCPService.executeTool`: result normalization and date injection -/

/-- A tool result after normalization by `MCPService.executeTool`:
`{content: ContentItem[], isError: boolean}`.  Content items stay duck-typed
(`JValue` objects with `type` / `text` / `data` fields), exactly as the
orchestrator consumes them. -/
structure MCPToolResult where
  content : List JValue
  isError : Bool

/-- The raw value returned by `connection.client.callTool(...)` before
validation: a possibly-missing `content` field of arbitrary shape and a
possibly-missing `isError` field (coerced with `Boolean(...)`). -/
structure RawToolResult where
  content : Option JValue
  isError : Option JValue

/-- A synthetic `{type: 'text', text: s}` content item. -/
def mkTextItem (s : String) : JValue :=
  .vobj [("type", .vstr "text"), ("text", .vstr s)]

/-- Message for a result without a (truthy) `content` field. -/
def missingContentText (toolName : String) : String :=
  "Tool \x27" ++ toolName ++ "\x27 returned invalid response: missing \x27content\x27 field.\n\n" ++
  "The MCP server needs to return: \x7bcontent: [\x7btype: \"text\", text: \"...\"\x7d]\x7d"

/-- Message for a non-array `content` field. -/
def nonArrayContentText (toolName typeofContent : String) : String :=
  "Tool \x27" ++ toolName ++ "\x27 returned invalid response: \x27content\x27 must be an array, got " ++
  typeofContent ++ ".\n\n" ++
  "The MCP server needs to return: \x7bcontent: [\x7btype: \"text\", text: \"...\"\x7d]\x7d"

/-- Message for a legitimately empty `content` array. -/
def emptyContentText (toolName : String) (args : JValue) : String :=
  "Tool \x27" ++ toolName ++ "\x27 returned no data. This could mean:\n" ++
  "- No data available for the requested parameters\n" ++
  "- The MCP server found nothing to return\n" ++
  "- There may be an issue with the tool implementation\n\n" ++
  "Requested: " ++ jsonStringify args

/-- Message when every content item was filtered out as invalid. -/
def invalidItemsText (toolName : String) : String :=
  "Tool \x27" ++ toolName ++ "\x27 returned invalid content items. Each item must have a \x27type\x27 field and appropriate data."

/-- The validity filter applied to each content item: it must be a non-null
object (`!item || typeof item !== 'object'` rejects) with a truthy `type`
field (`!item.type` rejects). -/
def validContentItem (item : JValue) : Bool :=
  (jsTruthy item && jsTypeof item == "object") && jsTruthyOpt (objGet item "type")

/-- Result-shape validation of `MCPService.executeTool` (service file lines
451-522): a falsy/missing `content` or a non-array `content` is replaced by a
single synthetic error text item (`isError = true`); an empty `content` array
by a single synthetic text item with `isError = false`; items without a
`type` tag are filtered out, and if that empties the list a single synthetic
error text item is returned (`isError = true`); otherwise the surviving items
are returned with `isError = Boolean(result.isError)`. -/
def validateRawResult (toolName : String) (args : JValue) (raw : RawToolResult) : MCPToolResult :=
  if !jsTruthyOpt raw.content then
    { content := [mkTextItem (missingContentText toolName)], isError := true }
  else
    match raw.content with
    | some (.varr items) =>
        if items.isEmpty then
          { content := [mkTextItem (emptyContentText toolName args)], isError := false }
        else
          let validContent := items.filter validContentItem
          if validContent.isEmpty then
            { content := [mkTextItem (invalidItemsText toolName)], isError := true }
          else
            { content := validContent, isError := jsTruthyOpt raw.isError }
    | some cv =>
        { content := [mkTextItem (nonArrayContentText toolName (jsTypeof cv))], isError := true }
    | none =>
        -- unreachable: `none` is falsy, caught by the guard above
        { content := [mkTextItem (missingContentText toolName)], isError := true }

/-- The six Garmin health tools that receive an auto-injected date. -/
def garminDateTools : List String :=
  ["get_daily_stats", "get_heart_rate_data", "get_stress_data",
   "get_sleep_data", "get_body_battery", "get_steps_data"]

/-- The date-injection step of `MCPService.executeTool` (service file lines
421-439): for a Garmin date tool, when `args.date_str` is falsy *and* not the
empty string (`!args.date_str && args.date_str !== ''`), the current local
date is written into the argument object before dispatch.  This mutates the
caller's parsed arguments and makes the dispatched arguments depend on the
ambient date `today`. -/
def injectDateStr (toolName : String) (today : String) (args : JValue) : JValue :=
  if garminDateTools.contains toolName then
    let dateStrField := objGet args "date_str"
    let isEmptyStringField :=
      match dateStrField with
      | some (.vstr s) => s = ""
      | _ => false
    if !jsTruthyOpt dateStrField && !isEmptyStringField then
      objSet args "date_str" (.vstr today)
    else args
  else args

/-- Case-sensitive `error.message.includes('structured_content must be a dict')`. -/
def structuredContentHint : String := "structured_content must be a dict"

/-- The `catch` branch of `MCPService.executeTool` (service file lines
523-543): a thrown provider error becomes an error-flagged single-text-item
result, never a rethrow. -/
def catchErrorResult (toolName errMsg : String) : MCPToolResult :=
  let errorDetails :=
    if containsSub structuredContentHint.data errMsg.data then
      "The MCP server returned invalid data format. It returned a raw list [] instead of proper MCP response format.\n\n" ++
      "The server should return:\n\x7b\n  \"content\": [\n    \x7b\"type\": \"text\", \"text\": \"your data here\"\x7d\n  ]\n\x7d\n\n" ++
      "Original error: " ++ errMsg
    else errMsg
  { content :=
      [mkTextItem
        ("Error calling tool \x27" ++ toolName ++ "\x27:\n\n" ++ errorDetails ++
         "\n\n🔧 Troubleshooting:\n1. Check the MCP server logs for errors\n2. Verify the tool returns proper MCP format: \x7bcontent: [...]\x7d\n3. Ensure the tool handles empty/no data cases correctly\n4. Test the tool directly: curl -X POST http://your-server/mcp ...")],
    isError := true }

/-- One MCP server connection, reduced to what `executeTool` inspects. -/
structure MCPConnection where
  serverName : String
  status : String

/-- The ambient state `MCPService.executeTool` reads: the connection map, the
provider's `callTool` behavior (an `Except.error` models a rejected promise),
and the current local date (`new Date()` formatted as `YYYY-MM-DD`). -/
structure MCPEnv where
  connection : String → Option MCPConnection
  rawCall : String → String → JValue → Except String RawToolResult
  today : String

/-- `MCPService.executeTool(serverId, toolName, args)` (service file lines
406-544): connection lookup (throws when absent or not connected), date
injection, provider dispatch, result validation; provider throws are caught
and converted to an error-text result. -/
def mcpServiceExecuteTool (env : MCPEnv) (serverId toolName : String) (args : JValue) :
    Except String MCPToolResult :=
  match env.connection serverId with
  | none => .error ("MCP server " ++ serverId ++ " not found")
  | some connection =>
      if connection.status ≠ "connected" then
        .error ("MCP server \x27" ++ connection.serverName ++ "\x27 is not connected (status: " ++
          connection.status ++ ")")
      else
        let args2 := injectDateStr toolName env.today args
        match env.rawCall serverId toolName args2 with
        | .ok raw => .ok (validateRawResult toolName args2 raw)
        | .error errMsg => .ok (catchErrorResult toolName errMsg)

/-! ## Chart detection (`detectChartsInToolResult` and helpers) -/

/-- Chart kinds, the `'line' | 'bar' | 'area'` union of the shared types. -/
inductive ChartKind where
  | line : ChartKind
  | bar : ChartKind
  | area : ChartKind
deriving DecidableEq

/-- The `config` field of a `ChartData`. -/
structure ChartConfig where
  xKey : String
  yKeys : List String
  colors : List String
  labels : List (String × String)

/-- A chart descriptor (`ChartData` of the shared types); `ctype` is the
`type` field (a reserved word in Lean). -/
structure ChartData where
  id : String
  ctype : ChartKind
  title : String
  data : List JValue
  config : ChartConfig

/-- `Object.entries(v)` as used by `flattenNestedArrayData`, which can also
receive array items (`typeof item === 'object'`): arrays enumerate their
elements under index keys, `Date` has no own enumerable properties. -/
def jsEntries : JValue → List (String × JValue)
  | .vobj fields => fields
  | .varr xs => (xs.enum.map fun p => (toString p.1, p.2))
  | _ => []

/-- Flattening of one record by `flattenNestedArrayData`: primitives and
arrays are copied as-is; an object-valued field has its non-object sub-fields
(`typeof !== 'object'`, plus `null`) hoisted to the top level; deeper values
are dropped.  Non-object items are returned unchanged. -/
def flattenOneItem (item : JValue) : JValue :=
  if jsTypeof item ≠ "object" then item
  else match item with
    | .vnull => .vnull
    | _ =>
        jsEntries item |>.foldl (fun flattened kv =>
          let key := kv.1
          let value := kv.2
          if jsTruthy value && jsTypeof value == "object" && !isJsArray value then
            (jsEntries value).foldl (fun acc nkv =>
              let nestedKey := nkv.1
              let nestedValue := nkv.2
              if jsTypeof nestedValue ≠ "object" then objSet acc nestedKey nestedValue
              else match nestedValue with
                | .vnull => objSet acc nestedKey nestedValue
                | _ => acc) flattened
          else objSet flattened key value) (.vobj [])

/-- `flattenNestedArrayData(data)` (orchestrator lines 461-491). -/
def flattenNestedArrayData (data : List JValue) : List JValue :=
  if data.isEmpty then data else data.map flattenOneItem

/-- The exclusion regexes of `filterChartableNumericFields` (IDs, versions,
goals, millisecond durations, constants are never Y-axis data). -/
def excludePatterns : List Pat :=
  [Pat.endP "id", Pat.exactP "id", Pat.containsP "profile",
   Pat.thenP "duration" "milliseconds", Pat.containsP "version",
   Pat.containsP "goal", Pat.containsP "constant"]

/-- The priority regexes of `filterChartableNumericFields`, ranked by
relevance. -/
def priorityPatterns : List Pat :=
  [Pat.containsP "steps", Pat.containsP "calories", Pat.thenP "heart" "rate",
   Pat.containsP "distance", Pat.containsP "stress", Pat.containsP "battery",
   Pat.containsP "spo2", Pat.containsP "respiration", Pat.containsP "sleep",
   Pat.containsP "floors", Pat.thenP "active" "seconds"]

/-- `findIndex` over the priority patterns (`-1` when no pattern matches). -/
def priorityIndexOf (k : String) : Int :=
  match priorityPatterns.findIdx? (fun p => p.test k) with
  | some i => (i : Int)
  | none => -1

/-- Lexicographic code-point comparison of character lists. -/
def cmpChars : List Char → List Char → Int
  | [], [] => 0
  | [], _ :: _ => -1
  | _ :: _, [] => 1
  | a :: as, b :: bs =>
      if a.toNat < b.toNat then -1
      else if b.toNat < a.toNat then 1
      else cmpChars as bs

/-- `a.localeCompare(b)`, modelled as code-point order (all keys involved are
ASCII identifiers, where the two orders agree). -/
def localeCompareInt (a b : String) : Int :=
  cmpChars a.data b.data

/-- The sort comparator of `filterChartableNumericFields`: priority-pattern
index first, then alphabetical. -/
def chartFieldCmp (a b : String) : Int :=
  let aPriority := priorityIndexOf a
  let bPriority := priorityIndexOf b
  if aPriority ≠ -1 ∧ bPriority ≠ -1 then aPriority - bPriority
  else if aPriority ≠ -1 then -1
  else if bPriority ≠ -1 then 1
  else localeCompareInt a b

/-- Stable insertion of `x` into `l`: `x` goes before the first element that
compares strictly greater, hence after elements that compare equal. -/
def insertStable (cmp : String → String → Int) (x : String) : List String → List String
  | [] => [x]
  | y :: rest => if cmp x y < 0 then x :: y :: rest else y :: insertStable cmp x rest

/-- `Array.prototype.sort(cmp)`; stable (as required since ES2019). -/
def sortStable (cmp : String → String → Int) (l : List String) : List String :=
  l.foldl (fun acc x => insertStable cmp x acc) []

/-- `filterChartableNumericFields(numericKeys, toolName)` (orchestrator lines
583-631): drop excluded keys, then sort by priority pattern and
alphabetically.  (`toolName` is accepted but unused, as in the source.) -/
def filterChartableNumericFields (numericKeys : List String) (toolName : String) : List String :=
  let filtered := numericKeys.filter (fun key => !excludePatterns.any (fun p => p.test key))
  sortStable chartFieldCmp filtered

/-- The metric table of `selectRelevantMetrics`, in source (insertion) order:
metric name to query/field regexes. -/
def metricPatterns : List (String × List Pat) :=
  [("steps", [Pat.containsP "steps", Pat.containsP "walked", Pat.containsP "walking"]),
   ("heart_rate", [Pat.thenP "heart" "rate", Pat.wordEndP "hr", Pat.containsP "pulse", Pat.containsP "bpm"]),
   ("calories", [Pat.containsP "calories", Pat.containsP "kcal", Pat.containsP "burned"]),
   ("distance", [Pat.containsP "distance", Pat.containsP "miles", Pat.containsP "kilometers", Pat.wordEndP "km"]),
   ("stress", [Pat.containsP "stress", Pat.containsP "anxiety"]),
   ("sleep", [Pat.containsP "sleep", Pat.containsP "asleep", Pat.containsP "sleeping"]),
   ("battery", [Pat.containsP "battery", Pat.containsP "energy"]),
   ("floors", [Pat.containsP "floors", Pat.containsP "climbed", Pat.containsP "stairs"]),
   ("spo2", [Pat.containsP "spo2", Pat.containsP "oxygen", Pat.containsP "o2"]),
   ("respiration", [Pat.containsP "respiration", Pat.containsP "breathing", Pat.containsP "breath"])]

/-- The generic-tool fallback priority list of `selectRelevantMetrics`. -/
def singleMetricPriority : List Pat :=
  [Pat.exactP "totalSteps", Pat.exactP "restingHeartRate", Pat.exactP "heartRate",
   Pat.exactP "averageStressLevel", Pat.exactP "totalCalories", Pat.startP "totalDistance"]

/-- `selectRelevantMetrics(numericKeys, toolName, userQuery)` (orchestrator
lines 502-574): match the user query (first) or the tool name against the
metric table; on a match return up to two matching keys; otherwise fall back
to the fixed single-metric priority list, and finally to the first key.
The source indexes `numericKeys[0]` unconditionally in the last resort; every
call site guarantees `numericKeys` is non-empty, and the unreachable empty
case is mapped to `[]`. -/
def selectRelevantMetrics (numericKeys : List String) (toolName userQuery : String) : List String :=
  let fromQuery := metricPatterns.find? (fun mp => mp.2.any (fun p => p.test userQuery))
  let requestedMetric :=
    match fromQuery with
    | some mp => some mp
    | none => metricPatterns.find? (fun mp => mp.2.any (fun p => p.test toolName))
  let fallback :=
    match singleMetricPriority.findSome? (fun p => numericKeys.find? (fun key => p.test key)) with
    | some m => [m]
    | none =>
        match numericKeys with
        | [] => []
        | key0 :: _ => [key0]
  match requestedMetric with
  | some mp =>
      let matchingKeys := numericKeys.filter (fun key => mp.2.any (fun p => p.test key))
      if !matchingKeys.isEmpty then matchingKeys.take 2 else fallback
  | none => fallback

/-- `determineChartType(data, xKey, yKeys)` (orchestrator lines 770-786):
date-patterned key or `Date` first value gives `area`, numeric first value
gives `line`, otherwise `bar`.  `data[0]` is modelled with `head?`; every
call site passes a list of length at least 2.  (`yKeys` is accepted but
unused, as in the source.) -/
def determineChartType (data : List JValue) (xKey : String) (yKeys : List String) : ChartKind :=
  let firstValue : Option JValue :=
    match data.head? with
    | some item => objGet item xKey
    | none => none
  if datePatternTest xKey || (match firstValue with | some .vdate => true | _ => false) then
    .area
  else if isJsNumberOpt firstValue then .line
  else .bar

/-- Underscores to spaces, then each `\b\w` position uppercased
(`.replace(/_/g, ' ').replace(/\b\w/g, c => c.toUpperCase())`). -/
def titleCaseChars : Bool → List Char → List Char
  | _, [] => []
  | prevIsWord, c :: rest =>
      let c2 := if isWordChar c && !prevIsWord then c.toUpper else c
      c2 :: titleCaseChars (isWordChar c) rest

/-- The snake-case/camel-case to Title Case conversion used for chart titles
and labels. -/
def toTitleCase (s : String) : String :=
  ⟨titleCaseChars false (s.data.map fun c => if c = '_' then ' ' else c)⟩

/-- `generateChartTitle(toolName, yKeys)` (orchestrator lines 795-807). -/
def generateChartTitle (toolName : String) (yKeys : List String) : String :=
  let toolTitle := toTitleCase toolName
  let metrics := String.intercalate ", " (yKeys.map toTitleCase)
  metrics ++ " - " ++ toolTitle

/-- The fixed color palette. -/
def chartPalette : List String := ["#00D9FF", "#7B2CBF", "#39FF14", "#FFD60A", "#FF206E"]

/-- `generateChartColors(count)` (orchestrator lines 815-824): cycle through
the palette by index. -/
def generateChartColors (count : Nat) : List String :=
  (List.range count).map fun i => (chartPalette.get? (i % chartPalette.length)).getD ""

/-- `generateLabels(keys)` (orchestrator lines 832-843). -/
def generateLabels (keys : List String) : List (String × String) :=
  keys.map fun key => (key, toTitleCase key)

/-- `analyzeDataForChart(data, toolName, userQuery)` (orchestrator lines
647-728).  The source generates the chart id inline from `Date.now()` and
`Math.random()`; that ambient value is passed in as `idStr`
(`chart-${Date.now()}-${Math.random().toString(36).substr(2, 9)}`). -/
def analyzeDataForChart (idStr : String) (data : List JValue) (toolName userQuery : String) :
    Option ChartData :=
  if data.length < 2 then none
  else if !(data.all fun item => isJsObject item) then none
  else
    match data with
    | [] => none
    | firstItem :: _ =>
        let keys := objKeys firstItem
        if keys.length < 2 then none
        else
          let numericKeys := keys.filter fun key =>
            data.all fun item => isJsNumberOpt (objGet item key)
          if numericKeys.isEmpty then none
          else
            let filteredNumericKeys := filterChartableNumericFields numericKeys toolName
            if filteredNumericKeys.isEmpty then none
            else
              let stringKeys := keys.filter fun key =>
                data.all fun item => isStrOrDateOpt (objGet item key)
              match stringKeys with
              | [] => none
              | stringKey0 :: _ =>
                  let xKey :=
                    match stringKeys.find? (fun k => datePatternTest k) with
                    | some dateKey => dateKey
                    | none => stringKey0
                  let yKeys := selectRelevantMetrics filteredNumericKeys toolName userQuery
                  let chartType := determineChartType data xKey yKeys
                  some
                    { id := idStr
                      ctype := chartType
                      title := generateChartTitle toolName yKeys
                      data := data
                      config :=
                        { xKey := xKey
                          yKeys := yKeys
                          colors := generateChartColors yKeys.length
                          labels := generateLabels yKeys } }

/-- The candidate record-arrays one content item contributes, in source
order (orchestrator lines 390-445): a direct array-valued `data` field;
array-valued fields of an object-valued `data` field; and, when `text` holds
a (nonempty) string, a JSON-parsed array or the array-valued fields of a
JSON-parsed object.  Malformed JSON contributes nothing. -/
def candidateArrays (item : JValue) : List (List JValue) :=
  let direct :=
    match objGet item "data" with
    | some (.varr xs) => [xs]
    | _ => []
  let nested :=
    match objGet item "data" with
    | some (.vobj fields) =>
        fields.filterMap fun kv => match kv.2 with | .varr xs => some xs | _ => none
    | _ => []
  let fromText :=
    match objGet item "text" with
    | some (.vstr s) =>
        if s ≠ "" then
          match parseJson s with
          | some (.varr xs) => [xs]
          | some (.vobj fields) =>
              fields.filterMap fun kv => match kv.2 with | .varr xs => some xs | _ => none
          | _ => []
        else []
    | _ => []
  direct ++ nested ++ fromText

/-- Analyze the candidate arrays in order, consuming one chart id per chart
actually created (`chartIdGen k` is the id the ambient
`Date.now()`/`Math.random()` would produce for the `k`-th chart of the
orchestration call). -/
def detectFromCandidates (chartIdGen : Nat → String) (toolName userQuery : String) :
    List (List JValue) → Nat → List ChartData × Nat
  | [], ctr => ([], ctr)
  | cand :: rest, ctr =>
      match analyzeDataForChart (chartIdGen ctr) (flattenNestedArrayData cand) toolName userQuery with
      | some chart =>
          let tail := detectFromCandidates chartIdGen toolName userQuery rest (ctr + 1)
          (chart :: tail.1, tail.2)
      | none => detectFromCandidates chartIdGen toolName userQuery rest ctr

/-- Scan the content items in order. -/
def detectFromItems (chartIdGen : Nat → String) (toolName userQuery : String) :
    List JValue → Nat → List ChartData × Nat
  | [], ctr => ([], ctr)
  | item :: rest, ctr =>
      let fromItem := detectFromCandidates chartIdGen toolName userQuery (candidateArrays item) ctr
      let fromRest := detectFromItems chartIdGen toolName userQuery rest fromItem.2
      (fromItem.1 ++ fromRest.1, fromRest.2)

/-- `detectChartsInToolResult(result, toolName, userQuery)` (orchestrator
lines 376-449), with the ambient chart-id source and the running chart
counter made explicit. -/
def detectChartsInToolResult (chartIdGen : Nat → String) (result : MCPToolResult)
    (toolName userQuery : String) (ctr : Nat) : List ChartData × Nat :=
  if result.isError then ([], ctr)
  else detectFromItems chartIdGen toolName userQuery result.content ctr

/-! ## The streaming-response accumulator (`accumulateStreamingResponse`) -/

/-- The `function` part of a tool call (`{name, arguments}`). -/
structure ToolCallFunction where
  name : String
  arguments : String
deriving DecidableEq

/-- A complete tool call (`ToolCall` of the shared types); `ctype` is the
`type: 'function'` field, `func` the `function` field (reserved words in
Lean). -/
structure ToolCall where
  id : String
  ctype : String
  func : ToolCallFunction
deriving DecidableEq

/-- One streamed tool-call delta (`ToolCallDelta`): a positional `index` and
optional `id` / `type` / `function.name` / `function.arguments` fragments
(`none` models an absent field; the merge treats empty strings as absent,
exactly like the source's truthiness tests). -/
structure ToolCallDelta where
  index : Nat
  id : Option String
  dtype : Option String
  fname : Option String
  fargs : Option String
deriving DecidableEq

/-- A partially accumulated tool call: the entry stored in `toolCallsBuffer`
under one positional index. -/
structure PartialToolCall where
  id : Option String
  ptype : Option String
  func : Option ToolCallFunction
deriving DecidableEq

/-- The `{}` freshly created by `toolCallsBuffer.get(index) || {}`. -/
def emptyPartial : PartialToolCall := ⟨none, none, none⟩

/-- Merging one delta into a buffer entry (orchestrator lines 218-237):
`id` and `type` overwrite when (truthily) present; a nonempty `function.name`
overwrites; `function.arguments` is appended, creating the `function` part
with empty fields if needed. -/
def mergeDelta (existing : PartialToolCall) (delta : ToolCallDelta) : PartialToolCall :=
  let e1 :=
    match delta.id with
    | some s => if s ≠ "" then { existing with id := some s } else existing
    | none => existing
  let e2 :=
    match delta.dtype with
    | some s => if s ≠ "" then { e1 with ptype := some s } else e1
    | none => e1
  let e3 :=
    match delta.fname with
    | some n =>
        if n ≠ "" then
          match e2.func with
          | none => { e2 with func := some ⟨n, ""⟩ }
          | some f => { e2 with func := some ⟨n, f.arguments⟩ }
        else e2
    | none => e2
  match delta.fargs with
  | some a =>
      if a ≠ "" then
        match e3.func with
        | none => { e3 with func := some ⟨"", a⟩ }
        | some f => { e3 with func := some ⟨f.name, f.arguments ++ a⟩ }
      else e3
  | none => e3

/-- The accumulation buffer: a JavaScript `Map<number, PartialToolCall>`,
i.e. an association list in key-insertion order. -/
def bufGet (buf : List (Nat × PartialToolCall)) (index : Nat) : PartialToolCall :=
  (buf.lookup index).getD emptyPartial

/-- `Map.set`: update the existing slot in place, else append. -/
def bufSet (buf : List (Nat × PartialToolCall)) (index : Nat) (v : PartialToolCall) :
    List (Nat × PartialToolCall) :=
  if (buf.lookup index).isSome then
    buf.map fun p => if p.1 = index then (index, v) else p
  else buf ++ [(index, v)]

/-- Process a batch of deltas in arrival order (the inner `for` of the
accumulator). -/
def processDeltas (buf : List (Nat × PartialToolCall)) (deltas : List ToolCallDelta) :
    List (Nat × PartialToolCall) :=
  deltas.foldl (fun b delta => bufSet b delta.index (mergeDelta (bufGet b delta.index) delta)) buf

/-- One stream chunk as the accumulator sees it: a content fragment, a
tool-call delta batch (the source normalizes a single delta to a one-element
array), or any other chunk type (ignored by the accumulator). -/
inductive Chunk where
  | content (s : String)
  | toolCall (deltas : List ToolCallDelta)
  | other

/-- A conversation message (`Message` of the shared types). -/
structure Message where
  role : String
  content : String
  tool_calls : Option (List ToolCall)
  tool_call_id : Option String
  timestamp : Nat
  chartData : Option (List ChartData)

/-- The accumulator's running state: the content buffer, the content
fragments already re-emitted to the caller, the tool-call buffer and the
finish reason. -/
structure AccState where
  contentBuffer : String
  emitted : List String
  toolCallsBuffer : List (Nat × PartialToolCall)
  finishReason : String

/-- One step of the accumulator (orchestrator lines 205-241): a (truthy)
content fragment is appended to the buffer and immediately re-emitted; a
tool-call chunk is merged into the buffer and records
`finishReason = 'tool_calls'`; other chunk types are ignored. -/
def accStep (st : AccState) : Chunk → AccState
  | .content s =>
      if s ≠ "" then
        { st with contentBuffer := st.contentBuffer ++ s, emitted := st.emitted ++ [s] }
      else st
  | .toolCall deltas =>
      { st with toolCallsBuffer := processDeltas st.toolCallsBuffer deltas,
                finishReason := "tool_calls" }
  | .other => st

/-- Materialization of one buffer entry on stream end (orchestrator lines
244-253): kept only with a (truthy) `id` and a (truthy) `function.name`;
empty accumulated arguments become `'{}'`. -/
def materializePartial (tc : PartialToolCall) : Option ToolCall :=
  match tc.id, tc.func with
  | some i, some f =>
      if i ≠ "" && f.name ≠ "" then
        some ⟨i, "function", ⟨f.name, if f.arguments = "" then "\x7b\x7d" else f.arguments⟩⟩
      else none
  | _, _ => none

/-- The accumulator's result triple. -/
structure AccumulatedResponse where
  assistantMessage : Message
  toolCalls : List ToolCall
  finishReason : String

/-- `accumulateStreamingResponse(messages, tools)` (orchestrator lines
195-267) applied to the chunk stream the model produced for this turn:
returns the immediately-emitted content fragments and the assembled
response.  `now` is the ambient `Date.now()` used for the message
timestamp. -/
def accumulateStreamingResponse (now : Nat) (chunks : List Chunk) :
    List String × AccumulatedResponse :=
  let st := chunks.foldl accStep
    { contentBuffer := "", emitted := [], toolCallsBuffer := [], finishReason := "stop" }
  let toolCalls := (st.toolCallsBuffer.map Prod.snd).filterMap materializePartial
  let assistantMessage : Message :=
    { role := "assistant", content := st.contentBuffer,
      tool_calls := if toolCalls.isEmpty then none else some toolCalls,
      tool_call_id := none, timestamp := now, chartData := none }
  (st.emitted, { assistantMessage := assistantMessage, toolCalls := toolCalls,
                 finishReason := st.finishReason })

/-! ## The tool executor and the orchestration loop (`chatWithTools`) -/

/-- `MAX_ITERATIONS` (orchestrator line 6). -/
def MAX_ITERATIONS : Nat := 10

/-- `TOOL_EXECUTION_TIMEOUT` in milliseconds (orchestrator line 7). -/
def TOOL_EXECUTION_TIMEOUT : Nat := 30000

/-- An available tool (`MCPTool`): the orchestrator reads `name` and
`serverId`. -/
structure MCPTool where
  name : String
  description : String
  inputSchema : JValue
  serverId : String

/-- One event yielded by `chatWithTools` to the caller. -/
inductive Event where
  | content (s : String)
  | toolExecutionStart (toolName toolCallId : String)
  | toolExecutionResult (toolName toolCallId : String) (isError : Bool)
  | chartData (chart : ChartData)
  | error (message : String)
  | done

/-- The result of one streamed model turn: the chunks delivered and, when the
stream threw, the exception message (thrown after the listed chunks were
delivered). -/
structure StreamResult where
  chunks : List Chunk
  streamError : Option String

/-- The ambient collaborators and nondeterminism of one orchestration call:
the model stream (`llmService.chatStream`), the tool provider
(`mcpService.executeTool`, as observed at the orchestrator boundary: a
result, or a thrown error, settling after `mcpTime` milliseconds), the clock
and the chart-id source. -/
structure LoopEnv where
  chat : List Message → List MCPTool → StreamResult
  mcp : String → String → JValue → Except String MCPToolResult
  mcpTime : String → String → JValue → Nat
  now : Nat
  chartIdGen : Nat → String

/-- `Tool '...' not found` (orchestrator line 309). -/
def toolNotFoundMsg (toolName : String) : String :=
  "Tool \x27" ++ toolName ++ "\x27 not found"

/-- `Invalid tool arguments: ${error.message}` (orchestrator line 317);
`JSON.parse`'s platform-specific message text is modelled as a fixed
string. -/
def invalidArgumentsMsg : String :=
  "Invalid tool arguments: unexpected token in JSON"

/-- `Tool execution timeout after 30000ms` (orchestrator line 282). -/
def timeoutErrorMsg : String :=
  "Tool execution timeout after " ++ toString TOOL_EXECUTION_TIMEOUT ++ "ms"

/-- `executeToolCall(toolCall, availableTools)` (orchestrator lines 300-342):
resolve the tool (throws `Tool '...' not found`), parse the arguments
(throws `Invalid tool arguments: ...`), then dispatch to
`mcpService.executeTool`. -/
def executeToolCall (env : LoopEnv) (toolCall : ToolCall) (availableTools : List MCPTool) :
    Except String MCPToolResult :=
  let toolName := toolCall.func.name
  match availableTools.find? (fun t => t.name = toolName) with
  | none => .error (toolNotFoundMsg toolName)
  | some tool =>
      match parseJson toolCall.func.arguments with
      | none => .error invalidArgumentsMsg
      | some args => env.mcp tool.serverId toolName args

/-- The settle time of the `executeToolCall` promise: synchronous throws
(unknown tool, argument parse failure) settle immediately; a provider
dispatch settles after `env.mcpTime` milliseconds. -/
def executeToolCallSettleTime (env : LoopEnv) (toolCall : ToolCall)
    (availableTools : List MCPTool) : Nat :=
  match availableTools.find? (fun t => t.name = toolCall.func.name) with
  | none => 0
  | some tool =>
      match parseJson toolCall.func.arguments with
      | none => 0
      | some args => env.mcpTime tool.serverId toolCall.func.name args

/-- `executeToolCallWithTimeout(toolCall, availableTools)` (orchestrator
lines 276-291): `Promise.race` between `executeToolCall` and a 30000 ms
timer.  The tool wins when it settles strictly before the timer fires; a tie
at exactly 30000 ms is resolved in favor of the timer (the source leaves the
scheduling of a simultaneous settle unspecified; the verified properties only
use strict exceedance). -/
def executeToolCallWithTimeout (env : LoopEnv) (toolCall : ToolCall)
    (availableTools : List MCPTool) : Except String MCPToolResult :=
  if TOOL_EXECUTION_TIMEOUT ≤ executeToolCallSettleTime env toolCall availableTools then
    .error timeoutErrorMsg
  else executeToolCall env toolCall availableTools

/-- `conversationHistory.filter(m => m.role === 'user').slice(-1)[0]?.content || ''`
(orchestrator line 105). -/
def lastUserQuery (history : List Message) : String :=
  match (history.filter fun m => m.role = "user").getLast? with
  | some m => m.content
  | none => ""

/-- `formatToolResult(result)` (orchestrator lines 350-363): text items
contribute their text, other items a rendering of their `data`; empty pieces
are dropped; pieces are joined by blank lines.  (A truthy non-string `text`
would be dropped by the source's `s.length > 0` filter; it is mapped to the
empty string here, with the same outcome.) -/
def formatToolResult (result : MCPToolResult) : String :=
  String.intercalate "\n\n"
    ((result.content.map fun item =>
        if (match objGet item "type" with | some (.vstr t) => t = "text" | _ => false) &&
            jsTruthyOpt (objGet item "text") then
          match objGet item "text" with | some (.vstr s) => s | _ => ""
        else if jsTruthyOpt (objGet item "data") then
          match objGet item "data" with | some d => jsonStringify d | none => ""
        else "").filter fun s => s.length > 0)

/-- The events, updated history and updated chart counter produced by the
per-turn tool-execution loop. -/
structure ToolRunResult where
  events : List Event
  history : List Message
  chartCtr : Nat

/-- The per-turn tool loop (orchestrator lines 92-153): for each tool call in
model order emit `tool_execution_start`; on success detect charts, emit one
`chart_data` event per chart, append the tool-result message and emit
`tool_execution_result` with the result's error flag; on a caught throw
(unknown tool, invalid arguments, timeout, provider throw) append a tool-role
error message and emit `tool_execution_result` with `isError = true`.  Either
way the remaining calls are processed. -/
def runToolCalls (env : LoopEnv) (tools : List MCPTool) :
    List ToolCall → List Message → Nat → ToolRunResult
  | [], history, ctr => ⟨[], history, ctr⟩
  | toolCall :: rest, history, ctr =>
      let startEvent := Event.toolExecutionStart toolCall.func.name toolCall.id
      match executeToolCallWithTimeout env toolCall tools with
      | .ok result =>
          let userQuery := lastUserQuery history
          let detected := detectChartsInToolResult env.chartIdGen result toolCall.func.name userQuery ctr
          let chartEvents := detected.1.map Event.chartData
          let toolResultMessage : Message :=
            { role := "tool", content := formatToolResult result,
              tool_calls := none, tool_call_id := some toolCall.id, timestamp := env.now,
              chartData := if detected.1.isEmpty then none else some detected.1 }
          let resultEvent := Event.toolExecutionResult toolCall.func.name toolCall.id result.isError
          let tail := runToolCalls env tools rest (history ++ [toolResultMessage]) detected.2
          ⟨startEvent :: chartEvents ++ resultEvent :: tail.events, tail.history, tail.chartCtr⟩
      | .error errMsg =>
          let errorMessage : Message :=
            { role := "tool",
              content := "Error executing " ++ toolCall.func.name ++ ": " ++ errMsg,
              tool_calls := none, tool_call_id := some toolCall.id, timestamp := env.now,
              chartData := none }
          let resultEvent := Event.toolExecutionResult toolCall.func.name toolCall.id true
          let tail := runToolCalls env tools rest (history ++ [errorMessage]) ctr
          ⟨startEvent :: resultEvent :: tail.events, tail.history, tail.chartCtr⟩

/-- How one run of the `while` loop of `chatWithTools` ended: the iteration
bound was exhausted (`continueLoop && iteration < MAX_ITERATIONS` failed with
`continueLoop` still true), the model gave a content-only final answer
(`continueLoop = false`), or a stream-level exception broke the loop. -/
inductive ExitKind where
  | fuelOut : ExitKind
  | finalAnswer : ExitKind
  | streamError : ExitKind
deriving DecidableEq

/-- The observable outcome of the `while` loop of `chatWithTools`. -/
structure IterResult where
  events : List Event
  finalIteration : Nat
  exit : ExitKind
  chartCtr : Nat

/-- The `while (continueLoop && iteration < MAX_ITERATIONS)` loop of
`chatWithTools` (orchestrator lines 74-171), with
`fuel = MAX_ITERATIONS - iteration` as the structural measure.  Each
iteration streams one model turn (content events first), then either runs the
requested tools and continues, finishes on a content-only answer, or yields
one `error` event and breaks on a stream-level exception. -/
def chatIter (env : LoopEnv) (tools : List MCPTool) :
    Nat → List Message → Nat → Nat → IterResult
  | 0, _, iteration, ctr => ⟨[], iteration, .fuelOut, ctr⟩
  | fuel + 1, conversationHistory, iteration, ctr =>
      let iteration2 := iteration + 1
      let sr := env.chat conversationHistory tools
      let accd := accumulateStreamingResponse env.now sr.chunks
      let contentEvents := accd.1.map Event.content
      let acc := accd.2
      match sr.streamError with
      | some errMsg => ⟨contentEvents ++ [Event.error errMsg], iteration2, .streamError, ctr⟩
      | none =>
          if acc.finishReason = "tool_calls" ∧ ¬ acc.toolCalls.isEmpty then
            let history1 := conversationHistory ++ [acc.assistantMessage]
            let run := runToolCalls env tools acc.toolCalls history1 ctr
            let rest := chatIter env tools fuel run.history iteration2 run.chartCtr
            ⟨contentEvents ++ run.events ++ rest.events, rest.finalIteration, rest.exit,
             rest.chartCtr⟩
          else
            ⟨contentEvents, iteration2, .finalAnswer, ctr⟩

/-- The fixed safety message (orchestrator line 178). -/
def maxIterationsErrorMsg : String :=
  "Maximum tool execution iterations reached. Stopping for safety."

/-- `chatWithTools(messages, tools)` (orchestrator lines 58-183): run the
loop, then — testing only the iteration counter — emit the safety `error`
event when `iteration >= MAX_ITERATIONS`, and always end with `done`. -/
def chatWithTools (env : LoopEnv) (messages : List Message) (tools : List MCPTool) :
    List Event :=
  let r := chatIter env tools MAX_ITERATIONS messages 0 0
  r.events ++
    (if MAX_ITERATIONS ≤ r.finalIteration then [Event.error maxIterationsErrorMsg] else []) ++
    [Event.done]

/-! ## Shared concrete data for the detector claims -/

/-- `{date: "2024-01-01", steps: 100}`. -/
def stepsRecord1 : JValue := .vobj [("date", .vstr "2024-01-01"), ("steps", .vnum 100)]

/-- `{date: "2024-01-02", steps: 200}`. -/
def stepsRecord2 : JValue := .vobj [("date", .vstr "2024-01-02"), ("steps", .vnum 200)]

/-- A non-error tool result whose single content item carries the two-record
steps array in its `data` field. -/
def stepsToolResult : MCPToolResult :=
  { content := [.vobj [("type", .vstr "text"), ("data", .varr [stepsRecord1, stepsRecord2])]],
    isError := false }

/-- C7: for the non-error tool result whose data is
`[{date:"2024-01-01", steps:100},{date:"2024-01-02", steps:200}]` and the
user query "how many steps", `detectChartsInToolResult` returns exactly one
chart descriptor, with `xKey = "date"`, `yKeys = ["steps"]` and kind `area`
— for every chart-id source, chart counter and tool name. -/
theorem c7_steps_query_yields_one_area_chart :
    ∀ (chartIdGen : Nat → String) (ctr : Nat) (toolName : String),
      ((detectChartsInToolResult chartIdGen stepsToolResult toolName "how many steps" ctr).1).map
          (fun c => (c.config.xKey, c.config.yKeys, c.ctype)) =
        [("date", ["steps"], ChartKind.area)] := by
  intro chartIdGen ctr toolName
  rfl

/-- When the X-axis key holds a string or `Date` in the first record,
`determineChartType` cannot take its numeric (`line`) branch. -/
theorem determineChartType_area_or_bar (data : List JValue) (xKey : String) (yKeys : List String)
    (h : isStrOrDateOpt (match data.head? with | some item => objGet item xKey | none => none) = true) :
    determineChartType data xKey yKeys = ChartKind.area ∨
    determineChartType data xKey yKeys = ChartKind.bar := by
  unfold determineChartType
  rcases hd : (match data.head? with | some item => objGet item xKey | none => none) with _ | v
  · rw [hd] at h
    simp [isStrOrDateOpt] at h
  · rw [hd] at h
    rw [hd]
    cases v <;> simp_all [isStrOrDateOpt, isStrOrDate, isJsNumberOpt, isJsNumber]

/-- C10: every chart `analyzeDataForChart` emits has kind `area` or `bar`,
never `line`: the X-axis key is chosen among keys whose value is a string or
`Date` in every record, so `determineChartType`'s numeric-first-value branch
is unreachable from `analyzeDataForChart`. -/
theorem c10_analyze_never_line :
    ∀ (idStr : String) (data : List JValue) (toolName userQuery : String),
    (analyzeDataForChart idStr data toolName userQuery).map ChartData.ctype = none ∨
    (analyzeDataForChart idStr data toolName userQuery).map ChartData.ctype = some ChartKind.area ∨
    (analyzeDataForChart idStr data toolName userQuery).map ChartData.ctype = some ChartKind.bar := by
  intro idStr data toolName userQuery
  unfold analyzeDataForChart
  split
  · left; rfl
  split
  · left; rfl
  split
  · left; rfl
  rename_i d0 dtl hlen2 hallobj
  dsimp only
  split
  · left; rfl
  split
  · left; rfl
  split
  · left; rfl
  split
  · left; rfl
  next stringKey0 restSK hsk =>
  right
  have hmem :
      (match List.find? (fun k => datePatternTest k) (stringKey0 :: restSK) with
       | some dateKey => dateKey
       | none => stringKey0) ∈ stringKey0 :: restSK := by
    rcases hf : List.find? (fun k => datePatternTest k) (stringKey0 :: restSK) with _ | k
    · simp
    · simpa using List.mem_of_find?_eq_some hf
  have hall : ∀ y ∈ stringKey0 :: restSK,
      ((d0 :: dtl).all fun item => isStrOrDateOpt (objGet item y)) = true := by
    intro y hy
    rw [← hsk] at hy
    exact (List.mem_filter.mp hy).2
  have hx := List.all_eq_true.mp (hall _ hmem) d0 (by simp)
  rcases determineChartType_area_or_bar (d0 :: dtl)
      (match List.find? (fun k => datePatternTest k) (stringKey0 :: restSK) with
       | some dateKey => dateKey
       | none => stringKey0)
      (selectRelevantMetrics
        (filterChartableNumericFields
          (List.filter (fun key => (d0 :: dtl).all fun item => isJsNumberOpt (objGet item key))
            (objKeys d0)) toolName) toolName userQuery)
      (by simpa using hx) with h | h
  · left
    simp only [hsk, Option.map, h]
  · right
    simp only [hsk, Option.map, h]

/-- Everything observable about a chart descriptor except its generated
`id`. -/
def chartObservables (c : ChartData) : ChartKind × String × List JValue × ChartConfig :=
  (c.ctype, c.title, c.data, c.config)

/-- `analyzeDataForChart` uses the ambient id value only for the `id` field:
all other fields of its result are independent of it. -/
theorem analyzeDataForChart_id_irrelevant (i1 i2 : String) (data : List JValue) (tn q : String) :
    (analyzeDataForChart i1 data tn q).map chartObservables =
    (analyzeDataForChart i2 data tn q).map chartObservables := by
  unfold analyzeDataForChart
  repeat' first
    | rfl
    | (dsimp only)
    | split

/-- Id-independence, lifted over one candidate list. -/
theorem detectFromCandidates_id_irrelevant (g1 g2 : Nat → String) (tn q : String) :
    ∀ (cands : List (List JValue)) (ctr1 ctr2 : Nat),
      (detectFromCandidates g1 tn q cands ctr1).1.map chartObservables =
      (detectFromCandidates g2 tn q cands ctr2).1.map chartObservables := by
  intro cands
  induction cands with
  | nil => intro _ _; rfl
  | cons cand rest ih =>
      intro ctr1 ctr2
      have h := analyzeDataForChart_id_irrelevant (g1 ctr1) (g2 ctr2) (flattenNestedArrayData cand) tn q
      unfold detectFromCandidates
      rcases h1 : analyzeDataForChart (g1 ctr1) (flattenNestedArrayData cand) tn q with _ | c1 <;>
        rcases h2 : analyzeDataForChart (g2 ctr2) (flattenNestedArrayData cand) tn q with _ | c2 <;>
        rw [h1, h2] at h <;> simp only [Option.map] at h
      · exact ih _ _
      · exact absurd h (by simp)
      · exact absurd h (by simp)
      · simp only [List.map, List.cons.injEq]
        rw [Option.some.injEq] at h
        exact ⟨h, ih _ _⟩

/-- Id-independence, lifted over the content items. -/
theorem detectFromItems_id_irrelevant (g1 g2 : Nat → String) (tn q : String) :
    ∀ (items : List JValue) (ctr1 ctr2 : Nat),
      (detectFromItems g1 tn q items ctr1).1.map chartObservables =
      (detectFromItems g2 tn q items ctr2).1.map chartObservables := by
  intro items
  induction items with
  | nil => intro _ _; rfl
  | cons item rest ih =>
      intro ctr1 ctr2
      unfold detectFromItems
      simp only [List.map_append]
      rw [detectFromCandidates_id_irrelevant g1 g2 tn q (candidateArrays item) ctr1 ctr2,
        ih _ _]

/-- C6 (counterexample): two calls of the detector on the same tool result,
tool name and user query do *not* yield identical descriptor lists when the
ambient `Date.now()` / `Math.random()` id source has moved between the calls
(as it does between any two real calls): the generated ids differ. -/
theorem c6_counterexample_ids_differ :
    (detectChartsInToolResult (fun _ => "chart-1700000000000-a1b2c3d4e") stepsToolResult
        "get_steps_data" "how many steps" 0).1 ≠
    (detectChartsInToolResult (fun _ => "chart-1700000000042-f5g6h7i8j") stepsToolResult
        "get_steps_data" "how many steps" 0).1 := by
  intro h
  exact absurd (congrArg (List.map ChartData.id) h) (by decide)

/-- C6 (amended): `detectChartsInToolResult` is a pure function of its
explicit inputs — in particular it cannot mutate the input `ToolResult` — and
two calls on the same tool result, tool name and user query yield identical
descriptor lists *up to the generated `id` field* (kind, title, rows and
config agree element-for-element), for any two ambient id sources and
starting counters. -/
theorem c6_detect_deterministic_except_ids (g1 g2 : Nat → String) (result : MCPToolResult)
    (tn q : String) (ctr1 ctr2 : Nat) :
    (detectChartsInToolResult g1 result tn q ctr1).1.map chartObservables =
    (detectChartsInToolResult g2 result tn q ctr2).1.map chartObservables := by
  unfold detectChartsInToolResult
  split
  · rfl
  · exact detectFromItems_id_irrelevant g1 g2 tn q result.content ctr1 ctr2

/-- Observer: the `date_str` argument field as a string (`""` when absent or
not a string). -/
def dateStrOf (v : JValue) : String :=
  match objGet v "date_str" with
  | some (.vstr s) => s
  | _ => ""

/-- An environment whose provider echoes the dispatched arguments back inside
the result, making the dispatched arguments observable. -/
def c8EchoEnv (today : String) : MCPEnv :=
  { connection := fun _ => some ⟨"Echo Server", "connected"⟩,
    rawCall := fun _ _ args =>
      .ok ⟨some (.varr [.vobj [("type", .vstr "text"), ("args", args)]]), none⟩,
    today := today }

/-- Observer: the `date_str` of the echoed arguments in an executor result. -/
def c8Observe (r : Except String MCPToolResult) : String :=
  match r with
  | .ok res =>
      match res.content with
      | item :: _ =>
          match objGet item "args" with
          | some a => dateStrOf a
          | none => ""
      | [] => ""
  | .error _ => ""

/-- C8 (counterexample): for the Garmin tool `get_steps_data` called with
`{}` (no `date_str`), the executor mutates the parsed arguments — after the
injection step they differ from the input — and two executions with the same
call and tool list dispatch *different* arguments to the provider when the
ambient local date differs (here 2025-10-11 vs 2025-10-12), observable end to
end through `MCPService.executeTool`. -/
theorem c8_counterexample_args_mutated :
    dateStrOf (injectDateStr "get_steps_data" "2025-10-11" (JValue.vobj [])) = "2025-10-11" ∧
    dateStrOf (injectDateStr "get_steps_data" "2025-10-12" (JValue.vobj [])) = "2025-10-12" ∧
    injectDateStr "get_steps_data" "2025-10-11" (JValue.vobj []) ≠ JValue.vobj [] ∧
    c8Observe (mcpServiceExecuteTool (c8EchoEnv "2025-10-11") "srv" "get_steps_data" (JValue.vobj [])) ≠
      c8Observe (mcpServiceExecuteTool (c8EchoEnv "2025-10-12") "srv" "get_steps_data" (JValue.vobj [])) := by
  refine ⟨rfl, rfl, ?_, by decide⟩
  intro h
  exact absurd (congrArg dateStrOf h) (by decide)

/-- C8 (amended): the executor holds no state between calls and leaves the
known-tools list untouched, but does not always leave the parsed arguments
unchanged: for a tool outside the six Garmin date tools, or when `date_str`
is truthy, or when `date_str` is exactly the empty string, the arguments are
dispatched as given; for a Garmin date tool whose `date_str` is falsy and not
the empty string, the executor writes the ambient local date into the
arguments before dispatch (so the dispatched arguments depend on the current
date). -/
theorem c8_dispatch_characterization (toolName today : String) (args : JValue) :
    (toolName ∉ garminDateTools →
      injectDateStr toolName today args = args) ∧
    (jsTruthyOpt (objGet args "date_str") = true →
      injectDateStr toolName today args = args) ∧
    ((match objGet args "date_str" with
      | some (JValue.vstr s) => s = ""
      | _ => false) = true →
      injectDateStr toolName today args = args) ∧
    (toolName ∈ garminDateTools →
      jsTruthyOpt (objGet args "date_str") = false →
      (match objGet args "date_str" with
       | some (JValue.vstr s) => s = ""
       | _ => false) = false →
      injectDateStr toolName today args = objSet args "date_str" (JValue.vstr today)) := by
  refine ⟨fun h => ?_, fun h => ?_, fun h => ?_, fun h1 h2 h3 => ?_⟩
  · simp [injectDateStr, h]
  · by_cases hc : toolName ∈ garminDateTools <;> simp [injectDateStr, h, hc]
  · by_cases hc : toolName ∈ garminDateTools <;> simp [injectDateStr, h, hc]
  · simp [injectDateStr, h1, h2, h3]

/-- Witness for C8 (amended) at concrete inputs: a non-Garmin tool and a
present `date_str` are dispatched unchanged; a Garmin tool without `date_str`
gets today's date injected. -/
theorem c8_dispatch_characterization_witness :
    injectDateStr "other_tool" "2025-10-11" (JValue.vobj [("a", JValue.vnum 1)]) =
      JValue.vobj [("a", JValue.vnum 1)] ∧
    injectDateStr "get_steps_data" "2025-10-11"
        (JValue.vobj [("date_str", JValue.vstr "2024-05-05")]) =
      JValue.vobj [("date_str", JValue.vstr "2024-05-05")] ∧
    injectDateStr "get_steps_data" "2025-10-11" (JValue.vobj []) =
      objSet (JValue.vobj []) "date_str" (JValue.vstr "2025-10-11") :=
  ⟨(c8_dispatch_characterization "other_tool" "2025-10-11" _).1 (by decide),
   (c8_dispatch_characterization "get_steps_data" "2025-10-11" _).2.1 (by decide),
   (c8_dispatch_characterization "get_steps_data" "2025-10-11" _).2.2.2 (by decide) (by decide)
     (by decide)⟩

/-- Shape validation never returns an empty content list. -/
theorem validateRawResult_content_ne_nil (toolName : String) (args : JValue) (raw : RawToolResult) :
    (validateRawResult toolName args raw).content ≠ [] := by
  unfold validateRawResult
  split
  · simp
  · split
    · split
      · simp
      · dsimp only
        split
        · simp
        · next hvc =>
            simpa [List.isEmpty_iff] using hvc
    · simp
    · simp

/-- C3: the `ToolResult` returned by `MCPService.executeTool` always has a
nonempty content list, and the normalization behaves by cases exactly as
specified: missing (or falsy) `content` and non-array `content` become one
synthetic error text item (`isError = true`); an empty `content` array
becomes one synthetic text item with `isError = false`; items without a type
tag are filtered out, and when filtering empties the list one synthetic error
text item (`isError = true`) is returned; otherwise the surviving items are
returned.  The final conjunct lifts nonemptiness to every successful
`MCPService.executeTool` call (including the caught-provider-throw path). -/
theorem c3_executeTool_result_normalization :
    ∀ (toolName : String) (args : JValue) (raw : RawToolResult),
      (validateRawResult toolName args raw).content ≠ [] ∧
      (jsTruthyOpt raw.content = false →
        validateRawResult toolName args raw =
          ⟨[mkTextItem (missingContentText toolName)], true⟩) ∧
      (∀ cv, raw.content = some cv → jsTruthy cv = true → isJsArray cv = false →
        validateRawResult toolName args raw =
          ⟨[mkTextItem (nonArrayContentText toolName (jsTypeof cv))], true⟩) ∧
      (raw.content = some (JValue.varr []) →
        validateRawResult toolName args raw =
          ⟨[mkTextItem (emptyContentText toolName args)], false⟩) ∧
      (∀ items, raw.content = some (JValue.varr items) → items ≠ [] →
        items.filter validContentItem = [] →
        validateRawResult toolName args raw =
          ⟨[mkTextItem (invalidItemsText toolName)], true⟩) ∧
      (∀ items, raw.content = some (JValue.varr items) →
        items.filter validContentItem ≠ [] →
        validateRawResult toolName args raw =
          ⟨items.filter validContentItem, jsTruthyOpt raw.isError⟩) ∧
      (∀ (env : MCPEnv) (serverId : String) (r : MCPToolResult),
        mcpServiceExecuteTool env serverId toolName args = .ok r → r.content ≠ []) := by
  intro toolName args raw
  refine ⟨validateRawResult_content_ne_nil toolName args raw, ?_, ?_, ?_, ?_, ?_, ?_⟩
  · intro h
    simp [validateRawResult, h]
  · intro cv hcv htr har
    cases cv <;> simp_all [validateRawResult, jsTruthyOpt, isJsArray]
  · intro h
    simp [validateRawResult, h, jsTruthyOpt, jsTruthy]
  · intro items hs hne hf
    simp [validateRawResult, hs, jsTruthyOpt, jsTruthy, List.isEmpty_iff, hne, hf]
  · intro items hs hfne
    have hne : items ≠ [] := fun hnil => hfne (by simp [hnil])
    simp [validateRawResult, hs, jsTruthyOpt, jsTruthy, List.isEmpty_iff, hfne, hne]
  · intro env serverId r h
    unfold mcpServiceExecuteTool at h
    rcases hc : env.connection serverId with _ | conn <;> rw [hc] at h <;> dsimp only at h
    · cases h
    · by_cases hs : conn.status ≠ "connected"
      · rw [if_pos hs] at h
        cases h
      · rw [if_neg hs] at h
        rcases hr : env.rawCall serverId toolName (injectDateStr toolName env.today args)
            with e | raw2 <;> rw [hr] at h <;> cases h
        · simp [catchErrorResult]
        · exact validateRawResult_content_ne_nil _ _ _

/-- Witness for C3 at concrete raw results: a missing `content`, an empty
`content` array and a non-array `content`. -/
theorem c3_executeTool_result_normalization_witness :
    validateRawResult "get_steps_data" (JValue.vobj []) ⟨none, none⟩ =
      ⟨[mkTextItem (missingContentText "get_steps_data")], true⟩ ∧
    validateRawResult "get_steps_data" (JValue.vobj []) ⟨some (JValue.varr []), none⟩ =
      ⟨[mkTextItem (emptyContentText "get_steps_data" (JValue.vobj []))], false⟩ ∧
    validateRawResult "get_steps_data" (JValue.vobj []) ⟨some (JValue.vstr "oops"), none⟩ =
      ⟨[mkTextItem (nonArrayContentText "get_steps_data" "string")], true⟩ :=
  ⟨(c3_executeTool_result_normalization "get_steps_data" (JValue.vobj []) ⟨none, none⟩).2.1 rfl,
   (c3_executeTool_result_normalization "get_steps_data" (JValue.vobj [])
      ⟨some (JValue.varr []), none⟩).2.2.2.1 rfl,
   (c3_executeTool_result_normalization "get_steps_data" (JValue.vobj [])
      ⟨some (JValue.vstr "oops"), none⟩).2.2.1 (JValue.vstr "oops") rfl (by decide) rfl⟩

/-! ## C2: per-index accumulation, silent drop, absent `tool_calls` -/

/-- The tool-call deltas a chunk stream carries, in arrival order. -/
def allToolCallDeltas : List Chunk → List ToolCallDelta
  | [] => []
  | Chunk.toolCall ds :: rest => ds ++ allToolCallDeltas rest
  | _ :: rest => allToolCallDeltas rest

/-- The deltas arriving for one positional index, in arrival order. -/
def deltasFor (index : Nat) (deltas : List ToolCallDelta) : List ToolCallDelta :=
  deltas.filter fun d => d.index = index

/-- The state one positional index ends the stream with: its deltas merged in
arrival order, starting from the empty entry. -/
def indexFinalState (index : Nat) (deltas : List ToolCallDelta) : PartialToolCall :=
  (deltasFor index deltas).foldl mergeDelta emptyPartial

/-- The positional indices in order of first appearance (a JavaScript `Map`'s
iteration order). -/
def indicesInOrder (deltas : List ToolCallDelta) : List Nat :=
  deltas.foldl (fun acc d => if d.index ∈ acc then acc else acc ++ [d.index]) []

theorem mem_indicesFold (ds : List ToolCallDelta) : ∀ (acc : List Nat) (i : Nat),
    (i ∈ ds.foldl (fun acc d => if d.index ∈ acc then acc else acc ++ [d.index]) acc) ↔
      i ∈ acc ∨ i ∈ ds.map (fun d => d.index) := by
  induction ds with
  | nil => simp
  | cons d rest ih =>
      intro acc i
      simp only [List.foldl_cons, List.map_cons, List.mem_cons]
      by_cases hd : d.index ∈ acc
      · rw [if_pos hd, ih]
        constructor
        · rintro (h | h)
          · exact Or.inl h
          · exact Or.inr (Or.inr h)
        · rintro (h | h | h)
          · exact Or.inl h
          · exact Or.inl (h ▸ hd)
          · exact Or.inr h
      · rw [if_neg hd, ih]
        simp only [List.mem_append, List.mem_singleton]
        tauto

theorem mem_indicesInOrder (ds : List ToolCallDelta) (i : Nat) :
    i ∈ indicesInOrder ds ↔ i ∈ ds.map (fun d => d.index) := by
  unfold indicesInOrder
  rw [mem_indicesFold]
  simp

theorem indicesInOrder_append (ds : List ToolCallDelta) (d : ToolCallDelta) :
    indicesInOrder (ds ++ [d]) =
      if d.index ∈ indicesInOrder ds then indicesInOrder ds
      else indicesInOrder ds ++ [d.index] := by
  unfold indicesInOrder
  rw [List.foldl_append]
  rfl

theorem indexFinalState_append (i : Nat) (ds : List ToolCallDelta) (d : ToolCallDelta) :
    indexFinalState i (ds ++ [d]) =
      if d.index = i then mergeDelta (indexFinalState i ds) d else indexFinalState i ds := by
  unfold indexFinalState deltasFor
  rw [List.filter_append]
  by_cases hd : d.index = i <;> simp [hd, List.foldl_append]

theorem lookup_map_pairing (f : Nat → PartialToolCall) (i : Nat) :
    ∀ (l : List Nat),
      (l.map fun j => (j, f j)).lookup i = if i ∈ l then some (f i) else none := by
  intro l
  induction l with
  | nil => simp
  | cons j rest ih =>
      simp only [List.map_cons, List.lookup_cons]
      by_cases hj : j = i
      · subst hj
        simp
      · have hij : ¬ i = j := fun h => hj h.symm
        have hne : (i == j) = false := by simpa using hij
        rw [hne]
        simp [ih, hij]

theorem map_congr_mem {α β : Type} {f g : α → β} : ∀ (l : List α), (∀ a ∈ l, f a = g a) →
    l.map f = l.map g := by
  intro l
  induction l with
  | nil => intro _; rfl
  | cons a t ih =>
      intro h
      simp only [List.map_cons]
      rw [h a (by simp), ih (fun b hb => h b (by simp [hb]))]

/-- The heart of C2: interleaved processing of the delta stream through the
`Map` buffer equals independent per-index merging, with the entries listed in
first-appearance order. -/
theorem processDeltas_repr (ds : List ToolCallDelta) :
    processDeltas [] ds =
      (indicesInOrder ds).map fun i => (i, indexFinalState i ds) := by
  induction ds using List.reverseRecOn with
  | nil => rfl
  | append_singleton ds d ih =>
      have hstep : processDeltas [] (ds ++ [d]) =
          bufSet (processDeltas [] ds) d.index
            (mergeDelta (bufGet (processDeltas [] ds) d.index) d) := by
        unfold processDeltas
        rw [List.foldl_append]
        rfl
      rw [hstep, ih]
      have hlk := lookup_map_pairing (fun i => indexFinalState i ds) d.index (indicesInOrder ds)
      by_cases hd : d.index ∈ indicesInOrder ds
      · have hget : bufGet ((indicesInOrder ds).map fun i => (i, indexFinalState i ds)) d.index
            = indexFinalState d.index ds := by
          unfold bufGet
          rw [hlk, if_pos hd]
          rfl
        unfold bufSet
        rw [hget, hlk, if_pos hd]
        simp only [Option.isSome_some, if_true]
        rw [indicesInOrder_append, if_pos hd, List.map_map]
        apply map_congr_mem
        intro j hj
        simp only [Function.comp]
        rw [indexFinalState_append]
        by_cases hji : j = d.index
        · subst hji
          simp
        · have : ¬ d.index = j := fun h => hji h.symm
          simp [hji, this]
      · have hget : bufGet ((indicesInOrder ds).map fun i => (i, indexFinalState i ds)) d.index
            = emptyPartial := by
          unfold bufGet
          rw [hlk, if_neg hd]
          rfl
        have hempty : indexFinalState d.index ds = emptyPartial := by
          unfold indexFinalState deltasFor
          have hfil : ds.filter (fun x => x.index = d.index) = [] := by
            rw [List.filter_eq_nil_iff]
            intro a ha
            simp only [decide_eq_true_eq]
            intro heq
            exact hd ((mem_indicesInOrder ds d.index).mpr (List.mem_map.mpr ⟨a, ha, heq⟩))
          rw [hfil]
          rfl
        unfold bufSet
        rw [hget, hlk, if_neg hd]
        simp only [Option.isSome_none, Bool.false_eq_true, if_false]
        rw [indicesInOrder_append, if_neg hd, List.map_append]
        congr 1
        · apply map_congr_mem
          intro j hj
          rw [indexFinalState_append]
          have : ¬ d.index = j := by
            intro h
            exact hd (h ▸ hj)
          simp [this]
        · simp only [List.map_cons, List.map_nil]
          rw [indexFinalState_append, if_pos rfl, hempty]

theorem processDeltas_append (buf : List (Nat × PartialToolCall))
    (ds1 ds2 : List ToolCallDelta) :
    processDeltas buf (ds1 ++ ds2) = processDeltas (processDeltas buf ds1) ds2 := by
  unfold processDeltas
  rw [List.foldl_append]

/-- The accumulator's buffer after a chunk stream is exactly the processed
delta stream (content chunks do not touch it). -/
theorem accumulate_buffer (chunks : List Chunk) : ∀ (st : AccState),
    (chunks.foldl accStep st).toolCallsBuffer =
      processDeltas st.toolCallsBuffer (allToolCallDeltas chunks) := by
  induction chunks with
  | nil => intro st; rfl
  | cons ch rest ih =>
      intro st
      cases ch with
      | content s =>
          simp only [List.foldl_cons, allToolCallDeltas]
          rw [ih]
          unfold accStep
          by_cases hs : s ≠ "" <;> simp [hs]
      | toolCall ds =>
          simp only [List.foldl_cons, allToolCallDeltas]
          rw [ih, processDeltas_append]
          rfl
      | other =>
          simp only [List.foldl_cons, allToolCallDeltas]
          rw [ih]
          rfl

/-- C2: for every chunk stream, the final tool-call list consists of exactly
the per-index entries (in first-appearance order) whose accumulated state
survives materialization, and an entry materializes exactly when it ends the
stream with a nonempty `id` and a nonempty `function.name` (empty accumulated
arguments become `'{}'`); entries missing either field are silently dropped;
and the assistant message's `tool_calls` field is absent (`none`) exactly
when no entry survives — never an empty list. -/
theorem c2_accumulator_silent_drop :
    ∀ (now : Nat) (chunks : List Chunk),
      (accumulateStreamingResponse now chunks).2.toolCalls =
        (indicesInOrder (allToolCallDeltas chunks)).filterMap
          (fun i => materializePartial (indexFinalState i (allToolCallDeltas chunks))) ∧
      (∀ (p : PartialToolCall) (tc : ToolCall),
        materializePartial p = some tc ↔
          ∃ i f, p.id = some i ∧ p.func = some f ∧ i ≠ "" ∧ f.name ≠ "" ∧
            tc = ⟨i, "function", ⟨f.name, if f.arguments = "" then "\x7b\x7d" else f.arguments⟩⟩) ∧
      ((accumulateStreamingResponse now chunks).2.toolCalls = [] →
        (accumulateStreamingResponse now chunks).2.assistantMessage.tool_calls = none) ∧
      ((accumulateStreamingResponse now chunks).2.toolCalls ≠ [] →
        (accumulateStreamingResponse now chunks).2.assistantMessage.tool_calls =
          some (accumulateStreamingResponse now chunks).2.toolCalls) := by
  intro now chunks
  refine ⟨?_, ?_, ?_, ?_⟩
  · show ((chunks.foldl accStep _).toolCallsBuffer.map Prod.snd).filterMap materializePartial = _
    rw [accumulate_buffer]
    show ((processDeltas [] (allToolCallDeltas chunks)).map Prod.snd).filterMap materializePartial = _
    rw [processDeltas_repr, List.map_map, List.filterMap_map]
    rfl
  · intro p tc
    rcases p with ⟨pid, pty, pfn⟩
    rcases pid with _ | i <;> rcases pfn with _ | f <;>
      simp [materializePartial]
    by_cases hi : i = "" <;> by_cases hn : f.name = "" <;>
      simp [hi, hn]
    exact eq_comm
  · intro h
    simp only [accumulateStreamingResponse] at h ⊢
    rw [h]
    rfl
  · intro h
    simp only [accumulateStreamingResponse] at h ⊢
    rw [if_neg (by rw [List.isEmpty_iff]; exact h)]

/-- A concrete chunk stream: index 0 completes (id, type, name, then
arguments); index 1 never resolves a nonempty name; index 2 never resolves an
id. -/
def c2Chunks : List Chunk :=
  [Chunk.content "Let me check.",
   Chunk.toolCall [⟨0, some "call_a", some "function", some "get_steps_data", none⟩],
   Chunk.toolCall [⟨0, none, none, none, some "\x7b\x7d"⟩,
                   ⟨1, some "call_b", none, some "", some "ignored"⟩,
                   ⟨2, none, none, some "orphan_tool", some "\x7b\x7d"⟩]]

/-- Witness for C2: on `c2Chunks` only the index-0 entry survives and
`tool_calls` carries it; on a content-only stream the list is empty and
`tool_calls` is absent. -/
theorem c2_accumulator_silent_drop_witness :
    (accumulateStreamingResponse 0 c2Chunks).2.toolCalls =
      [⟨"call_a", "function", ⟨"get_steps_data", "\x7b\x7d"⟩⟩] ∧
    (accumulateStreamingResponse 0 c2Chunks).2.assistantMessage.tool_calls =
      some [⟨"call_a", "function", ⟨"get_steps_data", "\x7b\x7d"⟩⟩] ∧
    (accumulateStreamingResponse 0 [Chunk.content "4"]).2.toolCalls = [] ∧
    (accumulateStreamingResponse 0 [Chunk.content "4"]).2.assistantMessage.tool_calls = none := by
  have hA := c2_accumulator_silent_drop 0 c2Chunks
  have hB := c2_accumulator_silent_drop 0 [Chunk.content "4"]
  have h1 : (accumulateStreamingResponse 0 c2Chunks).2.toolCalls =
      [⟨"call_a", "function", ⟨"get_steps_data", "\x7b\x7d"⟩⟩] := by
    rw [hA.1]
    decide
  have h2 : (accumulateStreamingResponse 0 [Chunk.content "4"]).2.toolCalls = [] := by
    rw [hB.1]
    decide
  refine ⟨h1, ?_, h2, hB.2.2.1 h2⟩
  rw [hA.2.2.2 (by rw [h1]; exact List.cons_ne_nil _ _), h1]

/-! ## Orchestration-loop claims (C1, C4, C5, C9) -/

/-- Is an event the `error` event type? -/
def isErrorEvent : Event → Bool
  | .error _ => true
  | _ => false

/-- The number of `error` events in an event list. -/
def countErrorEvents (events : List Event) : Nat :=
  (events.filter isErrorEvent).length

theorem filter_isError_content (l : List String) :
    (l.map Event.content).filter isErrorEvent = [] := by
  induction l <;> simp [isErrorEvent, *]

theorem filter_isError_chart (l : List ChartData) :
    (l.map Event.chartData).filter isErrorEvent = [] := by
  induction l <;> simp [isErrorEvent, *]

/-- The per-turn tool loop never emits `error` events (tool failures surface
as `tool_execution_result` with `isError = true`, not as `error`). -/
theorem runToolCalls_no_error (env : LoopEnv) (tools : List MCPTool) :
    ∀ (calls : List ToolCall) (history : List Message) (ctr : Nat),
      (runToolCalls env tools calls history ctr).events.filter isErrorEvent = [] := by
  intro calls
  induction calls with
  | nil => intro _ _; rfl
  | cons tc rest ih =>
      intro history ctr
      unfold runToolCalls
      rcases hx : executeToolCallWithTimeout env tc tools with e | result <;>
        simp only [hx]
      · simp [List.filter_cons, isErrorEvent, ih]
      · simp [List.filter_cons, List.filter_append, isErrorEvent, filter_isError_chart, ih]

/-- Unfolding of one loop iteration whose model turn requests tool calls: the
loop always proceeds to the next iteration after the per-turn tool loop,
regardless of tool-level failures. -/
theorem chatIter_toolCalls_step (env : LoopEnv) (tools : List MCPTool) (fuel : Nat)
    (history : List Message) (it ctr : Nat)
    (hse : (env.chat history tools).streamError = none)
    (hfr : (accumulateStreamingResponse env.now (env.chat history tools).chunks).2.finishReason =
      "tool_calls")
    (hne : (accumulateStreamingResponse env.now (env.chat history tools).chunks).2.toolCalls ≠ []) :
    chatIter env tools (fuel + 1) history it ctr =
      (let acc := (accumulateStreamingResponse env.now (env.chat history tools).chunks).2
       let run := runToolCalls env tools acc.toolCalls (history ++ [acc.assistantMessage]) ctr
       let rest := chatIter env tools fuel run.history (it + 1) run.chartCtr
       ⟨(accumulateStreamingResponse env.now (env.chat history tools).chunks).1.map Event.content ++
          run.events ++ rest.events,
        rest.finalIteration, rest.exit, rest.chartCtr⟩) := by
  conv_lhs => unfold chatIter
  dsimp only
  rw [hse]
  dsimp only
  rw [if_pos ⟨hfr, by rw [List.isEmpty_iff]; exact hne⟩]

/-- The C1 scenario: on every history the model turn streams without error,
finishes with `tool_calls`, carries at least one materialized call, and every
requested call executes successfully within the timeout. -/
def AlwaysToolCallingModel (env : LoopEnv) (tools : List MCPTool) : Prop :=
  ∀ history : List Message,
    (env.chat history tools).streamError = none ∧
    (accumulateStreamingResponse env.now (env.chat history tools).chunks).2.finishReason =
      "tool_calls" ∧
    (accumulateStreamingResponse env.now (env.chat history tools).chunks).2.toolCalls ≠ [] ∧
    ∀ tc ∈ (accumulateStreamingResponse env.now (env.chat history tools).chunks).2.toolCalls,
      ∃ r, executeToolCallWithTimeout env tc tools = Except.ok r

/-- Under the C1 scenario the loop consumes all its fuel, one iteration per
fuel unit, and never emits an `error` event. -/
theorem chatIter_always_tool (env : LoopEnv) (tools : List MCPTool)
    (H : AlwaysToolCallingModel env tools) :
    ∀ (fuel : Nat) (history : List Message) (it ctr : Nat),
      (chatIter env tools fuel history it ctr).finalIteration = it + fuel ∧
      (chatIter env tools fuel history it ctr).exit = ExitKind.fuelOut ∧
      (chatIter env tools fuel history it ctr).events.filter isErrorEvent = [] := by
  intro fuel
  induction fuel with
  | zero => intro history it ctr; exact ⟨rfl, rfl, rfl⟩
  | succ fuel ih =>
      intro history it ctr
      obtain ⟨hse, hfr, htc, _⟩ := H history
      rw [chatIter_toolCalls_step env tools fuel history it ctr hse hfr htc]
      dsimp only
      obtain ⟨ih1, ih2, ih3⟩ := ih
        ((runToolCalls env tools
          (accumulateStreamingResponse env.now (env.chat history tools).chunks).2.toolCalls
          (history ++
            [(accumulateStreamingResponse env.now
              (env.chat history tools).chunks).2.assistantMessage]) ctr).history)
        (it + 1)
        ((runToolCalls env tools
          (accumulateStreamingResponse env.now (env.chat history tools).chunks).2.toolCalls
          (history ++
            [(accumulateStreamingResponse env.now
              (env.chat history tools).chunks).2.assistantMessage]) ctr).chartCtr)
      refine ⟨by rw [ih1]; omega, ih2, ?_⟩
      rw [List.filter_append, List.filter_append, filter_isError_content,
        runToolCalls_no_error, ih3]
      rfl

/-- C1: when the model requests a valid, fast tool call on every turn, the
loop performs exactly `MAX_ITERATIONS = 10` iterations (the final iteration
counter is 10 and the loop ends by exhausting the bound — no 11th model turn
is started), emits no `error` event inside the loop, and the full event
stream is the loop's events followed by exactly one `error` event (the fixed
safety message) immediately before the final `done`. -/
theorem c1_iteration_cap (env : LoopEnv) (messages : List Message) (tools : List MCPTool)
    (H : AlwaysToolCallingModel env tools) :
    chatWithTools env messages tools =
      (chatIter env tools MAX_ITERATIONS messages 0 0).events ++
        [Event.error maxIterationsErrorMsg, Event.done] ∧
    countErrorEvents (chatIter env tools MAX_ITERATIONS messages 0 0).events = 0 ∧
    (chatIter env tools MAX_ITERATIONS messages 0 0).finalIteration = MAX_ITERATIONS ∧
    (chatIter env tools MAX_ITERATIONS messages 0 0).exit = ExitKind.fuelOut := by
  obtain ⟨hfi, hex, herr⟩ := chatIter_always_tool env tools H MAX_ITERATIONS messages 0 0
  refine ⟨?_, ?_, by simpa using hfi, hex⟩
  · unfold chatWithTools
    dsimp only
    rw [hfi]
    simp
  · unfold countErrorEvents
    rw [herr]
    rfl

/-- A tool available to the witness scenarios. -/
def c1Tool : MCPTool := ⟨"get_data", "", JValue.vnull, "srv"⟩

/-- The call the witness model requests each turn. -/
def c1Call : ToolCall := ⟨"call_1", "function", ⟨"get_data", "\x7b\x7d"⟩⟩

/-- A model turn that requests exactly `c1Call`. -/
def c1ToolTurn : StreamResult :=
  ⟨[Chunk.toolCall [⟨0, some "call_1", some "function", some "get_data", some "\x7b\x7d"⟩]], none⟩

/-- A concrete environment whose model always requests `c1Call` and whose
provider answers instantly. -/
def c1Env : LoopEnv :=
  { chat := fun _ _ => c1ToolTurn,
    mcp := fun _ _ _ => .ok ⟨[mkTextItem "ok"], false⟩,
    mcpTime := fun _ _ _ => 5,
    now := 0,
    chartIdGen := fun k => "chart-" ++ toString k }

/-- The user message opening the witness conversations. -/
def specUserMessage : Message := ⟨"user", "how many steps", none, none, 0, none⟩

/-- Witness for C1 at the concrete always-tool-calling environment. -/
theorem c1_iteration_cap_witness :
    chatWithTools c1Env [specUserMessage] [c1Tool] =
      (chatIter c1Env [c1Tool] MAX_ITERATIONS [specUserMessage] 0 0).events ++
        [Event.error maxIterationsErrorMsg, Event.done] ∧
    countErrorEvents (chatIter c1Env [c1Tool] MAX_ITERATIONS [specUserMessage] 0 0).events = 0 ∧
    (chatIter c1Env [c1Tool] MAX_ITERATIONS [specUserMessage] 0 0).finalIteration =
      MAX_ITERATIONS ∧
    (chatIter c1Env [c1Tool] MAX_ITERATIONS [specUserMessage] 0 0).exit = ExitKind.fuelOut := by
  apply c1_iteration_cap
  intro history
  have hred : (accumulateStreamingResponse c1Env.now
      (c1Env.chat history [c1Tool]).chunks).2.toolCalls = [c1Call] := rfl
  refine ⟨rfl, rfl, by rw [hred]; exact List.cons_ne_nil _ _, ?_⟩
  intro tc htc
  rw [hred, List.mem_singleton] at htc
  subst htc
  exact ⟨⟨[mkTextItem "ok"], false⟩, rfl⟩

/-- A loop run that ends with a content-only final answer emits no `error`
event inside the loop. -/
theorem chatIter_finalAnswer_no_error (env : LoopEnv) (tools : List MCPTool) :
    ∀ (fuel : Nat) (history : List Message) (it ctr : Nat),
      (chatIter env tools fuel history it ctr).exit = ExitKind.finalAnswer →
      (chatIter env tools fuel history it ctr).events.filter isErrorEvent = [] := by
  intro fuel
  induction fuel with
  | zero =>
      intro history it ctr h
      simp [chatIter] at h
  | succ fuel ih =>
      intro history it ctr h
      unfold chatIter at h ⊢
      dsimp only at h ⊢
      rcases hse : (env.chat history tools).streamError with _ | e
      · rw [hse] at h
        dsimp only at h ⊢
        by_cases hcond :
            (accumulateStreamingResponse env.now (env.chat history tools).chunks).2.finishReason =
              "tool_calls" ∧
            ¬ (accumulateStreamingResponse env.now
                (env.chat history tools).chunks).2.toolCalls.isEmpty = true
        · rw [if_pos hcond] at h ⊢
          dsimp only at h ⊢
          rw [List.filter_append, List.filter_append, filter_isError_content,
            runToolCalls_no_error, ih _ _ _ h]
          rfl
        · rw [if_neg hcond] at h ⊢
          exact filter_isError_content _
      · rw [hse] at h
        dsimp only at h
        simp at h

/-- C9: when the run ends with a content-only final answer on exactly the
10th iteration, `chatWithTools` nevertheless emits the maximum-iterations
safety `error` event immediately before `done` — the post-loop check tests
only `iteration >= MAX_ITERATIONS`, not whether the conversation completed
normally — and that safety event is the only `error` event of the stream. -/
theorem c9_cap_error_after_final_answer (env : LoopEnv) (messages : List Message)
    (tools : List MCPTool)
    (hexit : (chatIter env tools MAX_ITERATIONS messages 0 0).exit = ExitKind.finalAnswer)
    (hit : (chatIter env tools MAX_ITERATIONS messages 0 0).finalIteration = MAX_ITERATIONS) :
    chatWithTools env messages tools =
      (chatIter env tools MAX_ITERATIONS messages 0 0).events ++
        [Event.error maxIterationsErrorMsg, Event.done] ∧
    countErrorEvents (chatIter env tools MAX_ITERATIONS messages 0 0).events = 0 := by
  constructor
  · unfold chatWithTools
    dsimp only
    rw [hit]
    simp
  · unfold countErrorEvents
    rw [chatIter_finalAnswer_no_error env tools MAX_ITERATIONS messages 0 0 hexit]
    rfl

/-- An environment whose model requests `c1Call` on the first nine turns and
answers with plain content on the tenth. -/
def c9Env : LoopEnv :=
  { chat := fun history _ =>
      if (history.filter fun m => m.role = "assistant").length < 9 then c1ToolTurn
      else ⟨[Chunk.content "4"], none⟩,
    mcp := fun _ _ _ => .ok ⟨[mkTextItem "ok"], false⟩,
    mcpTime := fun _ _ _ => 5,
    now := 0,
    chartIdGen := fun k => "chart-" ++ toString k }

/-- Witness for C9: the concrete nine-tool-turns-then-answer environment
completes normally on iteration 10 and still receives the safety `error`
before `done`. -/
theorem c9_cap_error_after_final_answer_witness :
    chatWithTools c9Env [specUserMessage] [c1Tool] =
      (chatIter c9Env [c1Tool] MAX_ITERATIONS [specUserMessage] 0 0).events ++
        [Event.error maxIterationsErrorMsg, Event.done] ∧
    countErrorEvents (chatIter c9Env [c1Tool] MAX_ITERATIONS [specUserMessage] 0 0).events = 0 :=
  c9_cap_error_after_final_answer c9Env [specUserMessage] [c1Tool] (by decide) (by decide)

/-- The tool-role error message the loop appends when a tool execution throws
(orchestrator lines 138-144). -/
def toolErrorMessage (env : LoopEnv) (toolCall : ToolCall) (errMsg : String) : Message :=
  { role := "tool", content := "Error executing " ++ toolCall.func.name ++ ": " ++ errMsg,
    tool_calls := none, tool_call_id := some toolCall.id, timestamp := env.now,
    chartData := none }

/-- C4: a tool call whose `argumentsJson` does not parse makes the executor
fail with the invalid-arguments error, which the loop surfaces as
conversation content rather than an escaping exception: a tool-role error
message embedding the error text is appended to history, a
`tool_execution_result` event with `isError = true` is emitted, the remaining
calls of the turn are still processed, and (last conjunct) a turn containing
such a call still proceeds to the next loop iteration. -/
theorem c4_invalid_arguments_surfaced (env : LoopEnv) (tools : List MCPTool)
    (toolCall : ToolCall) (tool : MCPTool) (rest : List ToolCall) (history : List Message)
    (ctr : Nat)
    (hfind : tools.find? (fun t => t.name = toolCall.func.name) = some tool)
    (hparse : parseJson toolCall.func.arguments = none) :
    executeToolCall env toolCall tools = .error invalidArgumentsMsg ∧
    executeToolCallWithTimeout env toolCall tools = .error invalidArgumentsMsg ∧
    runToolCalls env tools (toolCall :: rest) history ctr =
      ⟨Event.toolExecutionStart toolCall.func.name toolCall.id ::
         Event.toolExecutionResult toolCall.func.name toolCall.id true ::
         (runToolCalls env tools rest
            (history ++ [toolErrorMessage env toolCall invalidArgumentsMsg]) ctr).events,
       (runToolCalls env tools rest
          (history ++ [toolErrorMessage env toolCall invalidArgumentsMsg]) ctr).history,
       (runToolCalls env tools rest
          (history ++ [toolErrorMessage env toolCall invalidArgumentsMsg]) ctr).chartCtr⟩ ∧
    (∀ (fuel it : Nat),
      (env.chat history tools).streamError = none →
      (accumulateStreamingResponse env.now (env.chat history tools).chunks).2.finishReason =
        "tool_calls" →
      (accumulateStreamingResponse env.now (env.chat history tools).chunks).2.toolCalls ≠ [] →
      chatIter env tools (fuel + 1) history it ctr =
        (let acc := (accumulateStreamingResponse env.now (env.chat history tools).chunks).2
         let run := runToolCalls env tools acc.toolCalls (history ++ [acc.assistantMessage]) ctr
         let next := chatIter env tools fuel run.history (it + 1) run.chartCtr
         ⟨(accumulateStreamingResponse env.now
             (env.chat history tools).chunks).1.map Event.content ++
            run.events ++ next.events,
          next.finalIteration, next.exit, next.chartCtr⟩)) := by
  have h1 : executeToolCall env toolCall tools = .error invalidArgumentsMsg := by
    simp [executeToolCall, hfind, hparse]
  have h2 : executeToolCallWithTimeout env toolCall tools = .error invalidArgumentsMsg := by
    simp [executeToolCallWithTimeout, executeToolCallSettleTime, hfind, hparse, h1,
      TOOL_EXECUTION_TIMEOUT]
  refine ⟨h1, h2, ?_, ?_⟩
  · conv_lhs => unfold runToolCalls
    rw [h2]
    rfl
  · intro fuel it hse hfr hne
    exact chatIter_toolCalls_step env tools fuel history it ctr hse hfr hne

/-- The bad call of the C4 witness: arguments that are not JSON. -/
def c4Call : ToolCall := ⟨"call_bad", "function", ⟨"get_data", "not json"⟩⟩

/-- Witness for C4: a known tool with unparseable arguments yields the
invalid-arguments error result, the error tool message and the
`isError = true` event. -/
theorem c4_invalid_arguments_surfaced_witness :
    executeToolCallWithTimeout c1Env c4Call [c1Tool] = .error invalidArgumentsMsg ∧
    runToolCalls c1Env [c1Tool] [c4Call] [] 0 =
      ⟨[Event.toolExecutionStart "get_data" "call_bad",
        Event.toolExecutionResult "get_data" "call_bad" true],
       [toolErrorMessage c1Env c4Call invalidArgumentsMsg], 0⟩ := by
  have h := c4_invalid_arguments_surfaced c1Env [c1Tool] c4Call c1Tool [] [] 0 rfl rfl
  refine ⟨h.2.1, ?_⟩
  rw [h.2.2.1]
  rfl

/-- C5: the timeout is the fixed 30000 ms race bound; a dispatched call whose
settle time exceeds it loses the race and surfaces as the timeout error: a
tool-role error message is appended, `tool_execution_result` with
`isError = true` is emitted, the remaining calls of the turn are still
processed, and (last conjunct) a turn containing the timing-out call still
proceeds to the next loop iteration. -/
theorem c5_timeout_is_tool_level (env : LoopEnv) (tools : List MCPTool)
    (toolCall : ToolCall) (tool : MCPTool) (args : JValue) (rest : List ToolCall)
    (history : List Message) (ctr : Nat)
    (hfind : tools.find? (fun t => t.name = toolCall.func.name) = some tool)
    (hparse : parseJson toolCall.func.arguments = some args)
    (htime : TOOL_EXECUTION_TIMEOUT < env.mcpTime tool.serverId toolCall.func.name args) :
    TOOL_EXECUTION_TIMEOUT = 30000 ∧
    executeToolCallWithTimeout env toolCall tools = .error timeoutErrorMsg ∧
    runToolCalls env tools (toolCall :: rest) history ctr =
      ⟨Event.toolExecutionStart toolCall.func.name toolCall.id ::
         Event.toolExecutionResult toolCall.func.name toolCall.id true ::
         (runToolCalls env tools rest
            (history ++ [toolErrorMessage env toolCall timeoutErrorMsg]) ctr).events,
       (runToolCalls env tools rest
          (history ++ [toolErrorMessage env toolCall timeoutErrorMsg]) ctr).history,
       (runToolCalls env tools rest
          (history ++ [toolErrorMessage env toolCall timeoutErrorMsg]) ctr).chartCtr⟩ ∧
    (∀ (fuel it : Nat),
      (env.chat history tools).streamError = none →
      (accumulateStreamingResponse env.now (env.chat history tools).chunks).2.finishReason =
        "tool_calls" →
      (accumulateStreamingResponse env.now (env.chat history tools).chunks).2.toolCalls ≠ [] →
      chatIter env tools (fuel + 1) history it ctr =
        (let acc := (accumulateStreamingResponse env.now (env.chat history tools).chunks).2
         let run := runToolCalls env tools acc.toolCalls (history ++ [acc.assistantMessage]) ctr
         let next := chatIter env tools fuel run.history (it + 1) run.chartCtr
         ⟨(accumulateStreamingResponse env.now
             (env.chat history tools).chunks).1.map Event.content ++
            run.events ++ next.events,
          next.finalIteration, next.exit, next.chartCtr⟩)) := by
  have h2 : executeToolCallWithTimeout env toolCall tools = .error timeoutErrorMsg := by
    simp [executeToolCallWithTimeout, executeToolCallSettleTime, hfind, hparse,
      le_of_lt htime]
  refine ⟨rfl, h2, ?_, ?_⟩
  · conv_lhs => unfold runToolCalls
    rw [h2]
    rfl
  · intro fuel it hse hfr hne
    exact chatIter_toolCalls_step env tools fuel history it ctr hse hfr hne

/-- The C5 witness environment: the provider needs 40000 ms, exceeding the
30000 ms bound. -/
def c5Env : LoopEnv :=
  { chat := fun _ _ => c1ToolTurn,
    mcp := fun _ _ _ => .ok ⟨[mkTextItem "ok"], false⟩,
    mcpTime := fun _ _ _ => 40000,
    now := 0,
    chartIdGen := fun k => "chart-" ++ toString k }

/-- Witness for C5: a 40000 ms tool execution times out, yields the timeout
error result, the error tool message and the `isError = true` event. -/
theorem c5_timeout_is_tool_level_witness :
    executeToolCallWithTimeout c5Env c1Call [c1Tool] = .error timeoutErrorMsg ∧
    runToolCalls c5Env [c1Tool] [c1Call] [] 0 =
      ⟨[Event.toolExecutionStart "get_data" "call_1",
        Event.toolExecutionResult "get_data" "call_1" true],
       [toolErrorMessage c5Env c1Call timeoutErrorMsg], 0⟩ := by
  have h := c5_timeout_is_tool_level c5Env [c1Tool] c1Call c1Tool (JValue.vobj []) [] [] 0
    rfl rfl (by decide)
  refine ⟨h.2.1, ?_⟩
  rw [h.2.2.1]
  rfl
